import Mathlib

/-!
# Commit engine of the port layer (`lib/portlayer/exec/commit.go`)

A shallow embedding of `Commit`.  The handle, the container cache and the
sequence of effects (remote operations, cache writes, published events) are
explicit state; the answers of the remote side are read from a `Remote`
record, one field per call that `Commit` makes.
-/

namespace Vic

/-! ## Errors -/

/-- Dynamic type of the fault carried by an error that implements
`types.HasFault`; only `*types.ConcurrentAccess` is told apart by `Commit`. -/
inductive MethodFault
  | ConcurrentAccess
  | other (kind : String)
  deriving DecidableEq, Repr

/-- Go `error` values that reach `Commit`: a plain error (`fmt.Errorf` and any
error without a `Fault()` method), an error implementing `types.HasFault`
(its fault may be nil), and the wrapper `ConcurrentAccessError{err}`. -/
inductive GoError
  | errorf (msg : String)
  | hasFault (msg : String) (fault : Option MethodFault)
  | ConcurrentAccessError (err : GoError)
  deriving DecidableEq, Repr

/-- The test of lines 158-160: `err.(types.HasFault)` succeeds and the dynamic
type of `f.Fault()` is `*types.ConcurrentAccess`. -/
def GoError.isConcurrentAccess : GoError → Bool
  | .hasFault _ (some .ConcurrentAccess) => true
  | _ => false

/-! ## Data model -/

/-- `types.VirtualMachinePowerState`. -/
inductive VirtualMachinePowerState
  | poweredOff
  | poweredOn
  | suspended
  deriving DecidableEq, Repr

/-- The part of `types.VirtualMachineRuntimeInfo` that `Commit` reads. -/
structure RuntimeInfo where
  PowerState : VirtualMachinePowerState
  deriving DecidableEq, Repr

/-- The part of `types.VirtualMachineConfigInfo` that `Commit` reads. -/
structure ConfigInfo where
  ChangeVersion : String
  deriving DecidableEq, Repr

/-- The fields of `types.VirtualMachineConfigSpec` that `Commit` writes, and
`Name` standing for the fields it leaves alone. -/
structure ConfigSpec where
  Name : String
  ChangeVersion : String
  ExtraConfig : Option (List (String × String))
  deriving DecidableEq, Repr

/-- `h.ExecConfig`, of which only the identifier is used. -/
structure ExecutorConfig where
  ID : String
  deriving DecidableEq, Repr

/-- A `types.ManagedObjectReference`, the result of a create task. -/
abbrev ManagedObjectReference := String

/-- Modelled from the spec: the type `containerBase` is declared outside
`commit.go`; these are the fields section 3 of the specification lists as
shared by Handle and Container (`id`, `remoteRef`, `cachedConfig`,
`cachedRuntime`, `migrated`), under the names `Commit` uses for them. -/
structure containerBase where
  ExecConfig : ExecutorConfig
  Migrated : Bool
  vm : Option ManagedObjectReference
  Config : Option ConfigInfo
  Runtime : Option RuntimeInfo
  deriving DecidableEq, Repr

/-- Modelled from the spec: the values of `targetPowerState`,
`{Unset, Stopped, Running}`; `Commit` compares `h.TargetState()` with
`StateStopped` and `StateRunning` only. -/
inductive State
  | StateUnset
  | StateStopped
  | StateRunning
  deriving DecidableEq, Repr

/-- Modelled from the spec: the type `Handle` is declared outside
`commit.go`; a `containerBase` with the pending spec, the target power state
and the reload flag. -/
structure Handle extends containerBase where
  Spec : Option ConfigSpec
  targetState : State
  reload : Bool
  deriving DecidableEq, Repr

/-- Modelled from the spec: the type `Container` is declared outside
`commit.go`; a cache entry holds a snapshot of the `containerBase`. -/
structure Container extends containerBase where
  deriving DecidableEq, Repr

/-- Modelled from the spec: `newContainer(&h.containerBase)` is defined outside
`commit.go`; the new cache entry is a snapshot of the handle's base. -/
def newContainer (base : containerBase) : Container := { base with }

/-- `events.ContainerCreated`, `events.ContainerStopped`,
`events.ContainerStarted`. -/
inductive Event
  | ContainerCreated
  | ContainerStopped
  | ContainerStarted
  deriving DecidableEq, Repr

/-- `*session.Session`, of which `Commit` asks `IsVC()`. -/
structure Session where
  IsVC : Bool
  deriving DecidableEq, Repr

/-! ## Container cache -/

/-- Modelled from the spec: the cache `Containers` is defined outside
`commit.go`; a mapping from id to Container with unique keys. -/
abbrev containerCache := List (String × Container)

/-- Lookup `Containers.Container(id)`; `none` is the nil pointer. -/
def containerCache.Container (cache : containerCache) (id : String) : Option Vic.Container :=
  List.lookup id cache

/-- Map assignment `cache[id] = c`. -/
def containerCache.store (cache : containerCache) (id : String) (c : Vic.Container) :
    containerCache :=
  (id, c) :: cache.filter (fun e => e.1 != id)

/-- Insertion `Containers.Put(c)`, under the container's own id. -/
def containerCache.Put (cache : containerCache) (c : Vic.Container) : containerCache :=
  cache.store c.ExecConfig.ID c

/-- Modelled from the spec: `RefreshFromHandle` is defined outside `commit.go`;
the cache entry is updated from the Handle's latest known state. -/
def Container.RefreshFromHandle (_c : Container) (h : Handle) : Container :=
  { h.tocontainerBase with }

/-! ## Effects and the remote side -/

/-- One effect of `Commit`, in the order performed: the remote calls, the
cache writes and the published events. -/
inductive Action
  | CreateChildVM (spec : ConfigSpec)
  | Folders
  | CreateVM (spec : ConfigSpec)
  | Put (id : String)
  | publishContainerEvent (id : String) (e : Event)
  | stop (id : String)
  | updates (id : String)
  | Reconfigure (vm : ManagedObjectReference) (spec : ConfigSpec)
  | startGuestProgram (id : String)
  | start (id : String)
  | RefreshFromHandle (id : String)
  deriving DecidableEq, Repr

/-- The answers of the collaborators to the calls of one `Commit`, and the
global `Config.VirtualApp.ResourcePool != nil`.  `none` is a nil error. -/
structure Remote where
  VirtualAppResourcePool : Bool
  CreateChildVM : ConfigSpec → Except GoError ManagedObjectReference
  Folders : Option GoError
  CreateVM : ConfigSpec → Except GoError ManagedObjectReference
  stop : Option GoError
  updates : Except GoError containerBase
  Reconfigure : ManagedObjectReference → ConfigSpec → Option GoError
  startGuestProgram : Option GoError
  start : Option GoError

/-- How a call of `Commit` ends: `return nil`, `return err`, or a run-time
panic from acting on a nil pointer. -/
inductive Return
  | nil
  | error (err : GoError)
  | panic
  deriving DecidableEq, Repr

/-- The variables of a running `Commit`: the handle `*h`, the local `c`, the
cache `Containers` and the effects performed so far. -/
structure Frame where
  h : Handle
  c : Option Container
  Containers : containerCache
  trace : List Action
  deriving DecidableEq, Repr

/-- Control after a block of statements: fall through, or leave the function. -/
inductive Flow
  | next (f : Frame)
  | ret (r : Return) (f : Frame)
  deriving DecidableEq, Repr

/-- Sequencing of blocks: the following block runs only after a fall-through. -/
def Flow.andThen (x : Flow) (k : Frame → Flow) : Flow :=
  match x with
  | .next f => k f
  | .ret r f => .ret r f

/-- Result of `Commit`: the returned value and the final state. -/
structure Outcome where
  ret : Return
  frame : Frame
  deriving DecidableEq, Repr

/-- The test `rt != nil && rt.PowerState == p`. -/
def runtimeIs (rt : Option RuntimeInfo) (p : VirtualMachinePowerState) : Bool :=
  match rt with
  | some r => r.PowerState == p
  | none => false

/-! ## Commit -/

/-- Lines 58-79: the choice of placement and the create task, awaited.  A
failed folder lookup returns before any create task is issued. -/
def createTask (env : Remote) (sess : Session) (spec : ConfigSpec) :
    Except GoError ManagedObjectReference × List Action :=
  if sess.IsVC && env.VirtualAppResourcePool then
    (env.CreateChildVM spec, [.CreateChildVM spec])
  else
    match env.Folders with
    | some err => (.error err, [.Folders])
    | none => (env.CreateVM spec, [.Folders, .CreateVM spec])

/-- Lines 39-95, the body of `if creation`.  The second `h.Spec == nil` test
of line 50 cannot succeed after the first one. -/
def creationBlock (env : Remote) (sess : Option Session) (f : Frame) : Flow :=
  match f.h.Spec with
  | none => .ret (.error (.errorf "a spec must be provided for create operations")) f
  | some spec =>
    match sess with
    | none => .ret (.error (.errorf "no session provided for create operations")) f
    | some s =>
      match f.c with
      | some _ =>
        .ret (.error (.errorf "a container already exists in the cache with this ID")) f
      | none =>
        match createTask env s spec with
        | (.error err, acts) => .ret (.error err) { f with trace := f.trace ++ acts }
        | (.ok res, acts) =>
          let h1 : Handle := { f.h with vm := some res }
          let c := newContainer h1.tocontainerBase
          .next { h := { h1 with Spec := none }
                  c := some c
                  Containers := f.Containers.Put c
                  trace := f.trace ++ acts ++
                    [.Put c.ExecConfig.ID,
                     .publishContainerEvent c.ExecConfig.ID .ContainerCreated] }

/-- Lines 98-126.  A method called on a nil `c` is a panic. -/
def stopBlock (env : Remote) (f : Frame) : Flow :=
  if f.h.targetState = .StateStopped then
    if runtimeIs f.h.Runtime .poweredOff then
      .next f
    else
      match f.c with
      | none => .ret .panic f
      | some _ =>
        match env.stop with
        | some err => .ret (.error err) { f with trace := f.trace ++ [.stop f.h.ExecConfig.ID] }
        | none =>
          let tr := f.trace ++
            [.stop f.h.ExecConfig.ID,
             .publishContainerEvent f.h.ExecConfig.ID .ContainerStopped,
             .updates f.h.ExecConfig.ID]
          match env.updates with
          | .error err => .ret (.error err) { f with trace := tr }
          | .ok base =>
            .next { f with h := { f.h with Runtime := base.Runtime, Config := base.Config }
                           trace := tr }
  else
    .next f

/-- Lines 138-149: `s := h.Spec.Spec()` with the version tag of the cached
config written into it, and `ExtraConfig` set to nil for a migrated
configuration. -/
def outgoingSpec (spec : ConfigSpec) (cfg : ConfigInfo) (migrated : Bool) : ConfigSpec :=
  let s : ConfigSpec := { spec with ChangeVersion := cfg.ChangeVersion }
  if migrated then { s with ExtraConfig := none } else s

/-- Lines 157-166: the value returned for the error `err` of a failed
reconfigure. -/
def reconfigureError (err : GoError) : GoError :=
  if err.isConcurrentAccess then .ConcurrentAccessError err else err

/-- Lines 129-177.  `s` points into `h.Spec`, so the writes to `s` are writes
to the handle's spec; reading `h.Config.ChangeVersion` of a nil `h.Config`, or
calling through a nil `h.vm`, is a panic. -/
def reconfigureBlock (env : Remote) (f : Frame) : Flow :=
  match f.h.Spec with
  | none => .next f
  | some spec =>
    match f.h.Runtime with
    | none => .next f
    | some _ =>
      match f.h.Config with
      | none => .ret .panic f
      | some cfg =>
        let s := outgoingSpec spec cfg f.h.Migrated
        let h1 : Handle := { f.h with Spec := some s }
        match f.h.vm with
        | none => .ret .panic { f with h := h1 }
        | some vm =>
          let f1 : Frame := { f with h := h1, trace := f.trace ++ [.Reconfigure vm s] }
          match env.Reconfigure vm s with
          | some err => .ret (.error (reconfigureError err)) f1
          | none =>
            if f.h.reload && runtimeIs f.h.Runtime .poweredOn then
              .next { f1 with trace := f1.trace ++ [.startGuestProgram f.h.ExecConfig.ID] }
            else
              .next f1

/-- Lines 185-204. -/
def startBlock (env : Remote) (f : Frame) : Outcome :=
  if f.h.targetState = .StateRunning then
    if runtimeIs f.h.Runtime .poweredOn then
      ⟨.nil, f⟩
    else
      match f.c with
      | none => ⟨.panic, f⟩
      | some _ =>
        match env.start with
        | some err => ⟨.error err, { f with trace := f.trace ++ [.start f.h.ExecConfig.ID] }⟩
        | none =>
          ⟨.nil, { f with trace := f.trace ++
            [.start f.h.ExecConfig.ID,
             .publishContainerEvent f.h.ExecConfig.ID .ContainerStarted] }⟩
  else
    ⟨.nil, f⟩

/-- The call deferred at line 182, run when the function leaves lines 185-204
(also by a panic): `c.RefreshFromHandle(ctx, h)`, which writes through the
pointer `c` into the cache entry, the one found under `h.ExecConfig.ID` at
line 37. -/
def runDeferred (o : Outcome) : Outcome :=
  match o.frame.c with
  | none => ⟨.panic, o.frame⟩
  | some c =>
    ⟨o.ret, { o.frame with
      c := some (c.RefreshFromHandle o.frame.h)
      Containers :=
        o.frame.Containers.store o.frame.h.ExecConfig.ID (c.RefreshFromHandle o.frame.h)
      trace := o.frame.trace ++ [.RefreshFromHandle o.frame.h.ExecConfig.ID] }⟩

/-- The function `Commit(ctx, sess, h, waitTime)` of `commit.go`. -/
def Commit (env : Remote) (sess : Option Session) (h : Handle) (Containers : containerCache) :
    Outcome :=
  let c := Containers.Container h.ExecConfig.ID
  let creation := h.vm.isNone
  let f0 : Frame := { h := h, c := c, Containers := Containers, trace := [] }
  let created : Flow := if creation then creationBlock env sess f0 else .next f0
  match (created.andThen (stopBlock env)).andThen (reconfigureBlock env) with
  | .ret r f => ⟨r, f⟩
  | .next f =>
    if !creation then runDeferred (startBlock env f) else startBlock env f

/-- State on entry of `Commit`, after line 37. -/
def entryFrame (h : Handle) (cache : containerCache) : Frame :=
  { h := h, c := cache.Container h.ExecConfig.ID, Containers := cache, trace := [] }

/-- The state in which a block ends, however it ends. -/
def Flow.frame : Flow → Frame
  | .next f => f
  | .ret _ f => f

/-! ## Observations on the effects -/

/-- Identifiers for which an event of kind `e` was published, in order. -/
def published (tr : List Action) (e : Event) : List String :=
  tr.filterMap (fun a => match a with
    | .publishContainerEvent id k => if k = e then some id else none
    | _ => none)

/-- The reconfigure calls issued, in order, each with its outgoing spec. -/
def reconfigures (tr : List Action) : List (ManagedObjectReference × ConfigSpec) :=
  tr.filterMap (fun a => match a with
    | .Reconfigure vm s => some (vm, s)
    | _ => none)

/-- The events published, in order, each with the identifier it is about. -/
def publishedEvents (tr : List Action) : List (String × Event) :=
  tr.filterMap (fun a => match a with
    | .publishContainerEvent id k => some (id, k)
    | _ => none)

/-- Identifiers of the cache entries updated from a handle, in order. -/
def cacheRefreshes (tr : List Action) : List String :=
  tr.filterMap (fun a => match a with
    | .RefreshFromHandle id => some id
    | _ => none)

/-- The create, power-off, reconfigure and power-on operations. -/
def Action.isRemoteMutation : Action → Bool
  | .CreateChildVM _ => true
  | .CreateVM _ => true
  | .stop _ => true
  | .Reconfigure _ _ => true
  | .start _ => true
  | _ => false

/-- The power-off, the targeted refresh and the reconfigure: the steps that
come before the cache update is deferred at line 182. -/
def Action.isStopOrReconfigure : Action → Bool
  | .stop _ => true
  | .updates _ => true
  | .Reconfigure _ _ => true
  | _ => false

/-- The cached runtime of the Handle already matches its target power state:
powered-off for Stopped, powered-on for Running, anything when unset. -/
def Handle.targetReached (h : Handle) : Bool :=
  match h.targetState with
  | .StateUnset => true
  | .StateStopped => runtimeIs h.Runtime .poweredOff
  | .StateRunning => runtimeIs h.Runtime .poweredOn

/-- Every call that leaves the process: the remote tasks and lookups, the
targeted refresh and the in-guest reload. -/
def Action.isRemoteCall : Action → Bool
  | .Put _ => false
  | .publishContainerEvent _ _ => false
  | .RefreshFromHandle _ => false
  | _ => true

/-- The rank of a remote mutation in the order of section 4.2: create,
power-off, reconfigure, power-on; other effects have none. -/
def Action.phase : Action → Option Nat
  | .CreateChildVM _ => some 0
  | .CreateVM _ => some 0
  | .stop _ => some 1
  | .Reconfigure _ _ => some 2
  | .start _ => some 3
  | _ => none

/-- The ranks of the remote mutations issued, in the order issued. -/
def phases (tr : List Action) : List Nat := tr.filterMap Action.phase

/-- The shape of the remote mutations of one Commit on the Handle `h`: at most
one create, then at most one power-off (only for target Stopped), then at
most one reconfigure, then at most one power-on (only for target Running). -/
def orderedPhases (h : Handle) (ps : List Nat) : Prop :=
  ∃ a b c d, ps = a ++ b ++ c ++ d ∧ (a = [] ∨ a = [0]) ∧
    (b = [] ∨ (b = [1] ∧ h.targetState = .StateStopped)) ∧ (c = [] ∨ c = [2]) ∧
    (d = [] ∨ (d = [3] ∧ h.targetState = .StateRunning))

/-! ## Failing steps -/

/-- The creation precondition checks of lines 39-56 as a function of the
arguments of `Commit`: the error returned before anything is issued. -/
def preconditionError (sess : Option Session) (h : Handle) (cache : containerCache) :
    Option GoError :=
  if h.vm.isSome then none
  else if h.Spec.isNone then some (.errorf "a spec must be provided for create operations")
  else if sess.isNone then some (.errorf "no session provided for create operations")
  else if (cache.Container h.ExecConfig.ID).isSome then
    some (.errorf "a container already exists in the cache with this ID")
  else none

/-- The error with which the remote side answers a call whose error `Commit`
checks: the folder lookup, the create task, the power-off, the targeted
refresh, the reconfigure and the power-on. -/
def Remote.stepFailure (env : Remote) : Action → Option GoError
  | .CreateChildVM spec =>
    match env.CreateChildVM spec with
    | .error e => some e
    | .ok _ => none
  | .Folders => env.Folders
  | .CreateVM spec =>
    match env.CreateVM spec with
    | .error e => some e
    | .ok _ => none
  | .stop _ => env.stop
  | .updates _ =>
    match env.updates with
    | .error e => some e
    | .ok _ => none
  | .Reconfigure vm s => env.Reconfigure vm s
  | .start _ => env.start
  | _ => none

/-- The failing steps as the specification lists them: the create task, the
power-off, the targeted refresh after it, the reconfigure task and the
power-on (the precondition checks issue nothing). -/
def Remote.listedFailure (env : Remote) : Action → Option GoError
  | .Folders => none
  | a => env.stepFailure a

/-- The value returned for the first failed step of a sequence of effects: its
error, wrapped by lines 157-166 when the step is a reconfigure. -/
def firstFailure (fail : Action → Option GoError) : List Action → Option GoError
  | [] => none
  | a :: rest =>
    match fail a with
    | some e =>
      some (match a with
        | .Reconfigure _ _ => reconfigureError e
        | _ => e)
    | none => firstFailure fail rest

/-- No create, power or reconfigure operation follows the first failed step. -/
def quietAfterFailure (fail : Action → Option GoError) : List Action → Bool
  | [] => true
  | a :: rest =>
    match fail a with
    | some _ => rest.all (fun b => !b.isRemoteMutation)
    | none => quietAfterFailure fail rest

/-- The returned value is the one the effects account for: the error of the
first failed step, or nil (unless the run panicked) when no step failed; and
nothing is issued after a failure. -/
def accountedFor (env : Remote) (r : Return) (tr : List Action) : Prop :=
  (match firstFailure env.stepFailure tr with
   | some e => r = .error e
   | none => r = .nil ∨ r = .panic) ∧
  quietAfterFailure env.stepFailure tr = true

/-! ## The filtering loop of `imagec` (`imagec/imagec.go`) -/

/-- The fields of `ImageWithMeta` (with its embedded `*models.Image`) that
identify an image: `ID`, `Parent`, `Store` and the layer's `BlobSum`. -/
structure ImageWithMeta where
  ID : String
  Parent : String
  Store : String
  BlobSum : String
  deriving DecidableEq, Repr

/-- The slice `ID[:12]` of line 237: the first 12 bytes of `ID`, a Go string
being the bytes of its UTF-8 encoding. -/
def idPrefix (ID : String) : List UInt8 :=
  (ID.data.flatMap String.utf8EncodeChar).take 12

/-- The variables of the loop of lines 230-239 of `imagec.go`: the slice
`images`, and what the loop has done so far: the values of `images[i]` it
read at line 231 and the arguments `ID[:12]` of the progress updates of line
237. -/
structure FilterState where
  images : List ImageWithMeta
  examined : List ImageWithMeta
  updates : List (List UInt8)
  deriving DecidableEq, Repr

/-- One iteration of the loop, lines 231-238, at index `i`; `none` is a
run-time panic: an index out of range at line 231 or, at line 237, the slice
`ID[:12]` of an `ID` shorter than 12 bytes. -/
def filterStep (existingImages : List String) (i : Nat) (st : FilterState) :
    Option FilterState :=
  match st.images[i]? with
  | none => none
  | some image =>
    if existingImages.contains image.ID then
      if image.ID.utf8ByteSize < 12 then none
      else
        some { images := st.images.take i ++ st.images.drop (i + 1)
               examined := st.examined ++ [image]
               updates := st.updates ++ [idPrefix image.ID] }
    else
      some { st with examined := st.examined ++ [image] }

/-- The iterations for `i = n - 1` down to `0`. -/
def filterLoop (existingImages : List String) : Nat → FilterState → Option FilterState
  | 0, st => some st
  | i + 1, st => (filterStep existingImages i st).bind (filterLoop existingImages i)

/-- The loop of lines 230-239: `for i := len(images) - 1; i >= 0; i--`. -/
def filterExisting (existingImages : List String) (images : List ImageWithMeta) :
    Option FilterState :=
  filterLoop existingImages images.length { images := images, examined := [], updates := [] }

/-! ## Concrete inputs -/

/-- A spec with an extended-configuration payload. -/
def sampleSpec : ConfigSpec :=
  { Name := "web", ChangeVersion := "", ExtraConfig := some [("guestinfo.vice./common/id", "c1")] }

/-- A session that is not connected to a vCenter. -/
def sampleSession : Session := { IsVC := false }

/-- The snapshot returned by the targeted refresh of `okRemote`: powered off,
with version tag `2`. -/
def refreshedBase : containerBase :=
  { ExecConfig := { ID := "c1" }, Migrated := false, vm := some "vm-1",
    Config := some { ChangeVersion := "2" }, Runtime := some { PowerState := .poweredOff } }

/-- A remote side on which every call succeeds. -/
def okRemote : Remote :=
  { VirtualAppResourcePool := false
    CreateChildVM := fun _ => .ok "vm-1"
    Folders := none
    CreateVM := fun _ => .ok "vm-1"
    stop := none
    updates := .ok refreshedBase
    Reconfigure := fun _ _ => none
    startGuestProgram := none
    start := none }

/-- A handle for a container that does not exist yet, to be started. -/
def newHandle : Handle :=
  { ExecConfig := { ID := "c1" }, Migrated := false, vm := none, Config := none,
    Runtime := none, Spec := some sampleSpec, targetState := .StateRunning, reload := false }

/-- A handle on the existing container `c1`, powered on with version tag `1`,
carrying a new spec and asking for a stop. -/
def existingHandle : Handle :=
  { ExecConfig := { ID := "c1" }, Migrated := false, vm := some "vm-1",
    Config := some { ChangeVersion := "1" }, Runtime := some { PowerState := .poweredOn },
    Spec := some sampleSpec, targetState := .StateStopped, reload := false }

/-- A cache holding `c1` as `existingHandle` sees it. -/
def sampleCache : containerCache := [("c1", newContainer existingHandle.tocontainerBase)]

/-- A remote side on which the reconfigure meets a concurrent modification. -/
def conflictRemote : Remote :=
  { okRemote with
    Reconfigure := fun _ _ => some (.hasFault "reconfigure" (some .ConcurrentAccess)) }

/-- The handle `existingHandle` with a migrated configuration. -/
def migratedHandle : Handle := { existingHandle with Migrated := true }

/-- A handle on `c1` that asks for a stop while the cached runtime already
reports powered-off, with nothing to reconfigure. -/
def stoppedHandle : Handle :=
  { existingHandle with Runtime := some { PowerState := .poweredOff }, Spec := none }

/-- A remote side on which every power operation and the refresh fail. -/
def powerlessRemote : Remote :=
  { okRemote with
    stop := some (.errorf "power off failed")
    updates := .error (.errorf "refresh failed")
    start := some (.errorf "power on failed") }

/-- A remote side on which the lookup of the datacenter folders fails. -/
def foldersRemote : Remote :=
  { okRemote with Folders := some (.errorf "could not get folders") }

/-- A handle on `c1` whose runtime and config are unknown, carrying a spec and
no target power state. -/
def unknownHandle : Handle :=
  { existingHandle with Runtime := none, Config := none, targetState := .StateUnset }

/-- A handle on the stopped `c1` that asks for a start, with nothing to
reconfigure. -/
def startHandle : Handle :=
  { existingHandle with
    Runtime := some { PowerState := .poweredOff }, Spec := none, targetState := .StateRunning }

/-- Three manifest images, child first; the second one exists already. -/
def manifestImages : List ImageWithMeta :=
  [{ ID := "3f2a9c0d1b7e", Parent := "8d41c7e05a96", Store := "vch", BlobSum := "sha256:aa" },
   { ID := "8d41c7e05a96", Parent := "0b6e2f9a4c13", Store := "vch", BlobSum := "sha256:bb" },
   { ID := "0b6e2f9a4c13", Parent := "scratch", Store := "vch", BlobSum := "sha256:cc" }]

/-- The identifiers of the images that exist already. -/
def existingIDs : List String := ["8d41c7e05a96"]

/-- A handle on `c1`, powered on, carrying a spec but no cached config. -/
def configlessHandle : Handle :=
  { existingHandle with Config := none, targetState := .StateUnset }

/-- A handle with a remote reference whose id `c9` is not in `sampleCache`,
with nothing to do. -/
def uncachedHandle : Handle :=
  { existingHandle with ExecConfig := { ID := "c9" }, Spec := none, targetState := .StateUnset }

/-- A handle on the stopped `c1` that carries a new spec and asks for a
start. -/
def restartHandle : Handle :=
  { existingHandle with
    Runtime := some { PowerState := .poweredOff }, targetState := .StateRunning }

/-! ## Theorems -/

theorem published_append (a b : List Action) (e : Event) :
    published (a ++ b) e = published a e ++ published b e := by
  simp [published, List.filterMap_append]

theorem reconfigures_append (a b : List Action) :
    reconfigures (a ++ b) = reconfigures a ++ reconfigures b := by
  simp [reconfigures, List.filterMap_append]

theorem cacheRefreshes_append (a b : List Action) :
    cacheRefreshes (a ++ b) = cacheRefreshes a ++ cacheRefreshes b := by
  simp [cacheRefreshes, List.filterMap_append]

theorem store_lookup (cache : containerCache) (id : String) (c : Container) :
    (cache.store id c).Container id = some c := by
  simp [containerCache.store, containerCache.Container, List.lookup]

theorem Commit_of_vm_none (env : Remote) (sess : Option Session) (h : Handle)
    (cache : containerCache) (hvm : h.vm = none) :
    Commit env sess h cache =
      match ((creationBlock env sess (entryFrame h cache)).andThen (stopBlock env)).andThen
          (reconfigureBlock env) with
      | .ret r f => ⟨r, f⟩
      | .next f => startBlock env f := by
  simp [Commit, hvm, entryFrame]

theorem Commit_of_vm_some (env : Remote) (sess : Option Session) (h : Handle)
    (cache : containerCache) (vm : ManagedObjectReference) (hvm : h.vm = some vm) :
    Commit env sess h cache =
      match (stopBlock env (entryFrame h cache)).andThen (reconfigureBlock env) with
      | .ret r f => ⟨r, f⟩
      | .next f => runDeferred (startBlock env f) := by
  simp [Commit, hvm, entryFrame, Flow.andThen]

/-- The three ways the placement and create task can end. -/
theorem createTask_cases (env : Remote) (s : Session) (spec : ConfigSpec) :
    (createTask env s spec = (env.CreateChildVM spec, [.CreateChildVM spec]) ∧
      (s.IsVC && env.VirtualAppResourcePool) = true) ∨
    (∃ err, createTask env s spec = (.error err, [.Folders]) ∧
      (s.IsVC && env.VirtualAppResourcePool) = false ∧ env.Folders = some err) ∨
    (createTask env s spec = (env.CreateVM spec, [.Folders, .CreateVM spec]) ∧
      (s.IsVC && env.VirtualAppResourcePool) = false ∧ env.Folders = none) := by
  unfold createTask
  cases hb : (s.IsVC && env.VirtualAppResourcePool)
  · cases hf : env.Folders <;> simp
  · simp

/-- The five ways the stop block can end. -/
theorem stopBlock_cases (env : Remote) (f : Frame) :
    (stopBlock env f = .next f ∧
      (f.h.targetState ≠ .StateStopped ∨ runtimeIs f.h.Runtime .poweredOff = true)) ∨
    (stopBlock env f = .ret .panic f ∧ f.h.targetState = .StateStopped ∧
      runtimeIs f.h.Runtime .poweredOff = false ∧ f.c = none) ∨
    (∃ err, stopBlock env f =
        .ret (.error err) { f with trace := f.trace ++ [.stop f.h.ExecConfig.ID] } ∧
      env.stop = some err ∧ f.h.targetState = .StateStopped ∧
      runtimeIs f.h.Runtime .poweredOff = false ∧ f.c ≠ none) ∨
    (∃ err, stopBlock env f =
        .ret (.error err) { f with trace := f.trace ++
          [.stop f.h.ExecConfig.ID,
           .publishContainerEvent f.h.ExecConfig.ID .ContainerStopped,
           .updates f.h.ExecConfig.ID] } ∧
      env.stop = none ∧ env.updates = .error err ∧ f.h.targetState = .StateStopped ∧
      runtimeIs f.h.Runtime .poweredOff = false ∧ f.c ≠ none) ∨
    (∃ base, stopBlock env f =
        .next { f with
          h := { f.h with Runtime := base.Runtime, Config := base.Config }
          trace := f.trace ++
            [.stop f.h.ExecConfig.ID,
             .publishContainerEvent f.h.ExecConfig.ID .ContainerStopped,
             .updates f.h.ExecConfig.ID] } ∧
      env.stop = none ∧ env.updates = .ok base ∧ f.h.targetState = .StateStopped ∧
      runtimeIs f.h.Runtime .poweredOff = false ∧ f.c ≠ none) := by
  unfold stopBlock
  by_cases ht : f.h.targetState = .StateStopped
  · cases hr : runtimeIs f.h.Runtime .poweredOff
    · cases hc : f.c
      · simp [ht, hc]
      · cases hs : env.stop
        · cases hu : env.updates <;> simp [ht, hc]
        · simp [ht, hc]
    · simp [ht]
  · simp [ht]

/-- The ways the reconfigure block can end. -/
theorem reconfigureBlock_cases (env : Remote) (f : Frame) :
    (reconfigureBlock env f = .next f ∧ (f.h.Spec = none ∨ f.h.Runtime = none)) ∨
    (∃ spec rt, reconfigureBlock env f = .ret .panic f ∧
      f.h.Spec = some spec ∧ f.h.Runtime = some rt ∧ f.h.Config = none) ∨
    (∃ spec rt cfg, reconfigureBlock env f =
        .ret .panic { f with h := { f.h with Spec := some (outgoingSpec spec cfg f.h.Migrated) } } ∧
      f.h.Spec = some spec ∧ f.h.Runtime = some rt ∧ f.h.Config = some cfg ∧ f.h.vm = none) ∨
    (∃ spec rt cfg vm err, reconfigureBlock env f =
        .ret (.error (reconfigureError err))
          { f with h := { f.h with Spec := some (outgoingSpec spec cfg f.h.Migrated) }
                   trace := f.trace ++ [.Reconfigure vm (outgoingSpec spec cfg f.h.Migrated)] } ∧
      f.h.Spec = some spec ∧ f.h.Runtime = some rt ∧ f.h.Config = some cfg ∧
      f.h.vm = some vm ∧ env.Reconfigure vm (outgoingSpec spec cfg f.h.Migrated) = some err) ∨
    (∃ spec rt cfg vm, reconfigureBlock env f =
        .next
          { f with h := { f.h with Spec := some (outgoingSpec spec cfg f.h.Migrated) }
                   trace := f.trace ++ [.Reconfigure vm (outgoingSpec spec cfg f.h.Migrated)] ++
                     (if f.h.reload && runtimeIs f.h.Runtime .poweredOn then
                        [.startGuestProgram f.h.ExecConfig.ID] else []) } ∧
      f.h.Spec = some spec ∧ f.h.Runtime = some rt ∧ f.h.Config = some cfg ∧
      f.h.vm = some vm ∧ env.Reconfigure vm (outgoingSpec spec cfg f.h.Migrated) = none) := by
  unfold reconfigureBlock
  cases hs : f.h.Spec with
  | none => simp
  | some spec =>
    cases hr : f.h.Runtime with
    | none => simp
    | some rt =>
      cases hc : f.h.Config with
      | none => simp
      | some cfg =>
        cases hv : f.h.vm with
        | none =>
          refine Or.inr (Or.inr (Or.inl ⟨spec, rt, cfg, ?_⟩))
          simp
        | some vm =>
          cases he : env.Reconfigure vm (outgoingSpec spec cfg f.h.Migrated) with
          | some err =>
            refine Or.inr (Or.inr (Or.inr (Or.inl ⟨spec, rt, cfg, vm, err, ?_⟩)))
            simp [he]
          | none =>
            refine Or.inr (Or.inr (Or.inr (Or.inr ⟨spec, rt, cfg, vm, ?_⟩)))
            cases hb : (f.h.reload && runtimeIs (some rt) .poweredOn) <;> simp_all

/-- The four ways the start block can end. -/
theorem startBlock_cases (env : Remote) (f : Frame) :
    (startBlock env f = ⟨.nil, f⟩ ∧
      (f.h.targetState ≠ .StateRunning ∨ runtimeIs f.h.Runtime .poweredOn = true)) ∨
    (startBlock env f = ⟨.panic, f⟩ ∧ f.h.targetState = .StateRunning ∧
      runtimeIs f.h.Runtime .poweredOn = false ∧ f.c = none) ∨
    (∃ err, startBlock env f =
        ⟨.error err, { f with trace := f.trace ++ [.start f.h.ExecConfig.ID] }⟩ ∧
      env.start = some err ∧ f.h.targetState = .StateRunning ∧
      runtimeIs f.h.Runtime .poweredOn = false ∧ f.c ≠ none) ∨
    (startBlock env f =
        ⟨.nil, { f with trace := f.trace ++
          [.start f.h.ExecConfig.ID,
           .publishContainerEvent f.h.ExecConfig.ID .ContainerStarted] }⟩ ∧
      env.start = none ∧ f.h.targetState = .StateRunning ∧
      runtimeIs f.h.Runtime .poweredOn = false ∧ f.c ≠ none) := by
  unfold startBlock
  by_cases ht : f.h.targetState = .StateRunning
  · cases hr : runtimeIs f.h.Runtime .poweredOn
    · cases hc : f.c
      · simp [ht, hc]
      · cases hs : env.start <;> simp [ht, hc]
    · simp [ht]
  · simp [ht]

theorem creationBlock_ok (env : Remote) (s : Session) (f : Frame) (spec : ConfigSpec)
    (ref : ManagedObjectReference) (acts : List Action)
    (hspec : f.h.Spec = some spec) (hc : f.c = none)
    (hct : createTask env s spec = (.ok ref, acts)) :
    creationBlock env (some s) f =
      .next { h := { f.h with vm := some ref, Spec := none }
              c := some (newContainer { f.h.tocontainerBase with vm := some ref })
              Containers :=
                f.Containers.Put (newContainer { f.h.tocontainerBase with vm := some ref })
              trace := f.trace ++ acts ++
                [.Put f.h.ExecConfig.ID,
                 .publishContainerEvent f.h.ExecConfig.ID .ContainerCreated] } := by
  simp [creationBlock, hspec, hc, hct, newContainer]

theorem reconfigureBlock_of_spec_none (env : Remote) (f : Frame) (hs : f.h.Spec = none) :
    reconfigureBlock env f = .next f := by
  simp [reconfigureBlock, hs]

/-- The placement and create task publish no event and issue no reconfigure. -/
theorem createTask_quiet (env : Remote) (s : Session) (spec : ConfigSpec) (e : Event) :
    published (createTask env s spec).2 e = [] ∧ reconfigures (createTask env s spec).2 = [] := by
  rcases createTask_cases env s spec with ⟨h, _⟩ | ⟨err, h, _⟩ | ⟨h, _⟩ <;>
    simp [h, published, reconfigures]

theorem creationBlock_cases (env : Remote) (sess : Option Session) (f : Frame) :
    (creationBlock env sess f =
        .ret (.error (.errorf "a spec must be provided for create operations")) f ∧
      f.h.Spec = none) ∨
    (∃ spec, creationBlock env sess f =
        .ret (.error (.errorf "no session provided for create operations")) f ∧
      f.h.Spec = some spec ∧ sess = none) ∨
    (∃ spec s c, creationBlock env sess f =
        .ret (.error (.errorf "a container already exists in the cache with this ID")) f ∧
      f.h.Spec = some spec ∧ sess = some s ∧ f.c = some c) ∨
    (∃ spec s err acts, creationBlock env sess f =
        .ret (.error err) { f with trace := f.trace ++ acts } ∧
      f.h.Spec = some spec ∧ sess = some s ∧ f.c = none ∧
      createTask env s spec = (.error err, acts)) ∨
    (∃ spec s ref acts, creationBlock env sess f =
        .next { h := { f.h with vm := some ref, Spec := none }
                c := some (newContainer { f.h.tocontainerBase with vm := some ref })
                Containers :=
                  f.Containers.Put (newContainer { f.h.tocontainerBase with vm := some ref })
                trace := f.trace ++ acts ++
                  [.Put f.h.ExecConfig.ID,
                   .publishContainerEvent f.h.ExecConfig.ID .ContainerCreated] } ∧
      f.h.Spec = some spec ∧ sess = some s ∧ f.c = none ∧
      createTask env s spec = (.ok ref, acts)) := by
  unfold creationBlock
  cases hs : f.h.Spec with
  | none => simp
  | some spec =>
    cases hse : sess with
    | none => simp
    | some s =>
      cases hc : f.c with
      | some c => simp
      | none =>
        rcases hct : createTask env s spec with ⟨r, acts⟩
        cases r with
        | error err =>
          refine Or.inr (Or.inr (Or.inr (Or.inl ⟨spec, s, err, acts, ?_⟩)))
          simp [hct]
        | ok ref =>
          refine Or.inr (Or.inr (Or.inr (Or.inr ⟨spec, s, ref, acts, ?_⟩)))
          simp [hct, newContainer]


theorem Commit_creation_rule (env : Remote) (sess : Option Session) (h : Handle)
    (cache : containerCache) (P : Outcome → Prop) (hvm : h.vm = none)
    (h0 : ∀ r f, creationBlock env sess (entryFrame h cache) = .ret r f → P ⟨r, f⟩)
    (h1 : ∀ f0 r f, creationBlock env sess (entryFrame h cache) = .next f0 →
      stopBlock env f0 = .ret r f → P ⟨r, f⟩)
    (h2 : ∀ f0 f1 r f, creationBlock env sess (entryFrame h cache) = .next f0 →
      stopBlock env f0 = .next f1 → reconfigureBlock env f1 = .ret r f → P ⟨r, f⟩)
    (h3 : ∀ f0 f1 f2, creationBlock env sess (entryFrame h cache) = .next f0 →
      stopBlock env f0 = .next f1 → reconfigureBlock env f1 = .next f2 →
      P (startBlock env f2)) :
    P (Commit env sess h cache) := by
  rw [Commit_of_vm_none env sess h cache hvm]
  cases hc : creationBlock env sess (entryFrame h cache) with
  | ret r f => exact h0 r f hc
  | next f0 =>
    cases hs : stopBlock env f0 with
    | ret r f => simpa [Flow.andThen, hs] using h1 f0 r f hc hs
    | next f1 =>
      cases hr : reconfigureBlock env f1 with
      | ret r f => simpa [Flow.andThen, hs, hr] using h2 f0 f1 r f hc hs hr
      | next f2 => simpa [Flow.andThen, hs, hr] using h3 f0 f1 f2 hc hs hr

theorem Commit_existing_rule (env : Remote) (sess : Option Session) (h : Handle)
    (cache : containerCache) (vm : ManagedObjectReference) (P : Outcome → Prop)
    (hvm : h.vm = some vm)
    (h1 : ∀ r f, stopBlock env (entryFrame h cache) = .ret r f → P ⟨r, f⟩)
    (h2 : ∀ f1 r f, stopBlock env (entryFrame h cache) = .next f1 →
      reconfigureBlock env f1 = .ret r f → P ⟨r, f⟩)
    (h3 : ∀ f1 f2, stopBlock env (entryFrame h cache) = .next f1 →
      reconfigureBlock env f1 = .next f2 → P (runDeferred (startBlock env f2))) :
    P (Commit env sess h cache) := by
  rw [Commit_of_vm_some env sess h cache vm hvm]
  cases hs : stopBlock env (entryFrame h cache) with
  | ret r f => exact h1 r f hs
  | next f1 =>
    cases hr : reconfigureBlock env f1 with
    | ret r f => simpa [Flow.andThen, hr] using h2 f1 r f hs hr
    | next f2 => simpa [Flow.andThen, hr] using h3 f1 f2 hs hr

theorem stopBlock_next_inv (env : Remote) (f f1 : Frame) (hs : stopBlock env f = .next f1) :
    (f1 = f ∧ (f.h.targetState ≠ .StateStopped ∨ runtimeIs f.h.Runtime .poweredOff = true)) ∨
    (∃ base, f1 = { f with
          h := { f.h with Runtime := base.Runtime, Config := base.Config }
          trace := f.trace ++
            [.stop f.h.ExecConfig.ID,
             .publishContainerEvent f.h.ExecConfig.ID .ContainerStopped,
             .updates f.h.ExecConfig.ID] } ∧
      env.stop = none ∧ env.updates = .ok base ∧ f.h.targetState = .StateStopped ∧
      runtimeIs f.h.Runtime .poweredOff = false ∧ f.c ≠ none) := by
  rcases stopBlock_cases env f with h | h | ⟨err, h⟩ | ⟨err, h⟩ | ⟨base, h⟩
  · rw [h.1] at hs
    exact Or.inl ⟨(Flow.next.inj hs).symm, h.2⟩
  · rw [h.1] at hs; cases hs
  · rw [h.1] at hs; cases hs
  · rw [h.1] at hs; cases hs
  · rw [h.1] at hs
    exact Or.inr ⟨base, (Flow.next.inj hs).symm, h.2⟩

theorem stopBlock_ret_inv (env : Remote) (f f1 : Frame) (r : Return)
    (hs : stopBlock env f = .ret r f1) :
    f.h.targetState = .StateStopped ∧ runtimeIs f.h.Runtime .poweredOff = false ∧
    ((r = .panic ∧ f1 = f ∧ f.c = none) ∨
     (∃ err, r = .error err ∧ f1 = { f with trace := f.trace ++ [.stop f.h.ExecConfig.ID] } ∧
        env.stop = some err ∧ f.c ≠ none) ∨
     (∃ err, r = .error err ∧ f1 = { f with trace := f.trace ++
          [.stop f.h.ExecConfig.ID,
           .publishContainerEvent f.h.ExecConfig.ID .ContainerStopped,
           .updates f.h.ExecConfig.ID] } ∧
        env.stop = none ∧ env.updates = .error err ∧ f.c ≠ none)) := by
  rcases stopBlock_cases env f with h | h | ⟨err, h⟩ | ⟨err, h⟩ | ⟨base, h⟩
  · rw [h.1] at hs; cases hs
  · rw [h.1] at hs
    obtain ⟨rfl, rfl⟩ := Flow.ret.inj hs
    exact ⟨h.2.1, h.2.2.1, Or.inl ⟨rfl, rfl, h.2.2.2⟩⟩
  · rw [h.1] at hs
    obtain ⟨rfl, rfl⟩ := Flow.ret.inj hs
    exact ⟨h.2.2.1, h.2.2.2.1, Or.inr (Or.inl ⟨err, rfl, rfl, h.2.1, h.2.2.2.2⟩)⟩
  · rw [h.1] at hs
    obtain ⟨rfl, rfl⟩ := Flow.ret.inj hs
    exact ⟨h.2.2.2.1, h.2.2.2.2.1,
      Or.inr (Or.inr ⟨err, rfl, rfl, h.2.1, h.2.2.1, h.2.2.2.2.2⟩)⟩
  · rw [h.1] at hs; cases hs

theorem reconfigureBlock_next_inv (env : Remote) (f f1 : Frame)
    (hr : reconfigureBlock env f = .next f1) :
    (f1 = f ∧ (f.h.Spec = none ∨ f.h.Runtime = none)) ∨
    (∃ spec rt cfg vm, f1 =
          { f with h := { f.h with Spec := some (outgoingSpec spec cfg f.h.Migrated) }
                   trace := f.trace ++ [.Reconfigure vm (outgoingSpec spec cfg f.h.Migrated)] ++
                     (if f.h.reload && runtimeIs f.h.Runtime .poweredOn then
                        [.startGuestProgram f.h.ExecConfig.ID] else []) } ∧
      f.h.Spec = some spec ∧ f.h.Runtime = some rt ∧ f.h.Config = some cfg ∧
      f.h.vm = some vm ∧ env.Reconfigure vm (outgoingSpec spec cfg f.h.Migrated) = none) := by
  rcases reconfigureBlock_cases env f with
    h | ⟨sp, rt, h⟩ | ⟨sp, rt, cfg, h⟩ | ⟨sp, rt, cfg, v, e2, h⟩ | ⟨sp, rt, cfg, v, h⟩
  · rw [h.1] at hr
    exact Or.inl ⟨(Flow.next.inj hr).symm, h.2⟩
  · rw [h.1] at hr; cases hr
  · rw [h.1] at hr; cases hr
  · rw [h.1] at hr; cases hr
  · rw [h.1] at hr
    exact Or.inr ⟨sp, rt, cfg, v, (Flow.next.inj hr).symm, h.2⟩

theorem reconfigureBlock_ret_inv (env : Remote) (f f1 : Frame) (r : Return)
    (hr : reconfigureBlock env f = .ret r f1) :
    ∃ spec rt, f.h.Spec = some spec ∧ f.h.Runtime = some rt ∧
    ((r = .panic ∧ f1 = f ∧ f.h.Config = none) ∨
     (∃ cfg, r = .panic ∧
        f1 = { f with h := { f.h with Spec := some (outgoingSpec spec cfg f.h.Migrated) } } ∧
        f.h.Config = some cfg ∧ f.h.vm = none) ∨
     (∃ cfg vm err, r = .error (reconfigureError err) ∧
        f1 = { f with h := { f.h with Spec := some (outgoingSpec spec cfg f.h.Migrated) }
                      trace := f.trace ++
                        [.Reconfigure vm (outgoingSpec spec cfg f.h.Migrated)] } ∧
        f.h.Config = some cfg ∧ f.h.vm = some vm ∧
        env.Reconfigure vm (outgoingSpec spec cfg f.h.Migrated) = some err)) := by
  rcases reconfigureBlock_cases env f with
    h | ⟨sp, rt, h⟩ | ⟨sp, rt, cfg, h⟩ | ⟨sp, rt, cfg, v, e2, h⟩ | ⟨sp, rt, cfg, v, h⟩
  · rw [h.1] at hr; cases hr
  · rw [h.1] at hr
    obtain ⟨rfl, rfl⟩ := Flow.ret.inj hr
    exact ⟨sp, rt, h.2.1, h.2.2.1, Or.inl ⟨rfl, rfl, h.2.2.2⟩⟩
  · rw [h.1] at hr
    obtain ⟨rfl, rfl⟩ := Flow.ret.inj hr
    exact ⟨sp, rt, h.2.1, h.2.2.1, Or.inr (Or.inl ⟨cfg, rfl, rfl, h.2.2.2⟩)⟩
  · rw [h.1] at hr
    obtain ⟨rfl, rfl⟩ := Flow.ret.inj hr
    exact ⟨sp, rt, h.2.1, h.2.2.1, Or.inr (Or.inr ⟨cfg, v, e2, rfl, rfl, h.2.2.2⟩)⟩
  · rw [h.1] at hr; cases hr


theorem startBlock_reconfigures (env : Remote) (f : Frame) :
    reconfigures (startBlock env f).frame.trace = reconfigures f.trace := by
  rcases startBlock_cases env f with h | h | ⟨err, h⟩ | h <;>
    simp [h.1, reconfigures_append, reconfigures]

theorem runDeferred_reconfigures (o : Outcome) :
    reconfigures (runDeferred o).frame.trace = reconfigures o.frame.trace := by
  unfold runDeferred
  split <;> simp [reconfigures_append, reconfigures]

theorem GoError.ne_wrap (err : GoError) : GoError.ConcurrentAccessError err ≠ err := by
  intro h
  have := congrArg sizeOf h
  simp at this

theorem createTask_acts (env : Remote) (s : Session) (spec : ConfigSpec)
    (r : Except GoError ManagedObjectReference) (acts : List Action)
    (h : createTask env s spec = (r, acts)) :
    (acts = [.CreateChildVM spec] ∧ r = env.CreateChildVM spec) ∨
    (acts = [.Folders] ∧ ∃ err, r = .error err ∧ env.Folders = some err) ∨
    (acts = [.Folders, .CreateVM spec] ∧ r = env.CreateVM spec ∧ env.Folders = none) := by
  rcases createTask_cases env s spec with ⟨h1, _⟩ | ⟨err, h1, _, hf⟩ | ⟨h1, _, hf⟩ <;>
    rw [h1] at h <;> cases h
  · exact Or.inl ⟨rfl, rfl⟩
  · exact Or.inr (Or.inl ⟨rfl, err, rfl, hf⟩)
  · exact Or.inr (Or.inr ⟨rfl, rfl, hf⟩)

theorem creationBlock_next_inv (env : Remote) (sess : Option Session) (f f1 : Frame)
    (hc : creationBlock env sess f = .next f1) :
    ∃ spec s ref acts,
      f1 = { h := { f.h with vm := some ref, Spec := none }
             c := some (newContainer { f.h.tocontainerBase with vm := some ref })
             Containers :=
               f.Containers.Put (newContainer { f.h.tocontainerBase with vm := some ref })
             trace := f.trace ++ acts ++
               [.Put f.h.ExecConfig.ID,
                .publishContainerEvent f.h.ExecConfig.ID .ContainerCreated] } ∧
      f.h.Spec = some spec ∧ sess = some s ∧ f.c = none ∧
      createTask env s spec = (.ok ref, acts) := by
  rcases creationBlock_cases env sess f with
    h | ⟨spec, h⟩ | ⟨spec, s, c, h⟩ | ⟨spec, s, err, acts, h⟩ | ⟨spec, s, ref, acts, h⟩
  · rw [h.1] at hc; cases hc
  · rw [h.1] at hc; cases hc
  · rw [h.1] at hc; cases hc
  · rw [h.1] at hc; cases hc
  · rw [h.1] at hc
    exact ⟨spec, s, ref, acts, (Flow.next.inj hc).symm, h.2⟩

theorem creationBlock_ret_inv (env : Remote) (sess : Option Session) (f f1 : Frame)
    (r : Return) (hc : creationBlock env sess f = .ret r f1) :
    (f1 = f ∧ ∃ msg, r = .error (.errorf msg)) ∨
    (∃ spec s err acts, r = .error err ∧ f1 = { f with trace := f.trace ++ acts } ∧
      f.h.Spec = some spec ∧ sess = some s ∧ f.c = none ∧
      createTask env s spec = (.error err, acts)) := by
  rcases creationBlock_cases env sess f with
    h | ⟨spec, h⟩ | ⟨spec, s, c, h⟩ | ⟨spec, s, err, acts, h⟩ | ⟨spec, s, ref, acts, h⟩
  · rw [h.1] at hc
    obtain ⟨rfl, rfl⟩ := Flow.ret.inj hc
    exact Or.inl ⟨rfl, _, rfl⟩
  · rw [h.1] at hc
    obtain ⟨rfl, rfl⟩ := Flow.ret.inj hc
    exact Or.inl ⟨rfl, _, rfl⟩
  · rw [h.1] at hc
    obtain ⟨rfl, rfl⟩ := Flow.ret.inj hc
    exact Or.inl ⟨rfl, _, rfl⟩
  · rw [h.1] at hc
    obtain ⟨rfl, rfl⟩ := Flow.ret.inj hc
    exact Or.inr ⟨spec, s, err, acts, rfl, rfl, h.2⟩
  · rw [h.1] at hc; cases hc

theorem stopBlock_reconfigures (env : Remote) (f : Frame) :
    reconfigures (stopBlock env f).frame.trace = reconfigures f.trace := by
  rcases stopBlock_cases env f with h | h | ⟨err, h⟩ | ⟨err, h⟩ | ⟨base, h⟩ <;>
    simp [h.1, Flow.frame, reconfigures_append, reconfigures]

theorem creationBlock_reconfigures (env : Remote) (sess : Option Session) (f : Frame) :
    reconfigures (creationBlock env sess f).frame.trace = reconfigures f.trace := by
  rcases creationBlock_cases env sess f with
    h | ⟨spec, h⟩ | ⟨spec, s, c, h⟩ | ⟨spec, s, err, acts, h⟩ | ⟨spec, s, ref, acts, h⟩
  · simp [h.1, Flow.frame]
  · simp [h.1, Flow.frame]
  · simp [h.1, Flow.frame]
  · rcases createTask_acts env s spec _ _ h.2.2.2.2 with ⟨rfl, _⟩ | ⟨rfl, _⟩ | ⟨rfl, _⟩ <;>
      simp [h.1, Flow.frame, reconfigures_append, reconfigures]
  · rcases createTask_acts env s spec _ _ h.2.2.2.2 with ⟨rfl, _⟩ | ⟨rfl, _⟩ | ⟨rfl, _⟩ <;>
      simp [h.1, Flow.frame, reconfigures_append, reconfigures]

/-- A Commit that creates issues no reconfigure. -/
theorem Commit_creation_reconfigures (env : Remote) (sess : Option Session) (h : Handle)
    (cache : containerCache) (hvm : h.vm = none) :
    reconfigures (Commit env sess h cache).frame.trace = [] := by
  have e0 : reconfigures (entryFrame h cache).trace = [] := by simp [entryFrame, reconfigures]
  refine Commit_creation_rule env sess h cache
    (fun out => reconfigures out.frame.trace = []) hvm ?_ ?_ ?_ ?_
  · intro r f hc
    have := creationBlock_reconfigures env sess (entryFrame h cache)
    rw [hc, e0] at this
    exact this
  · intro f0 r f hc hs
    have h1 := creationBlock_reconfigures env sess (entryFrame h cache)
    have h2 := stopBlock_reconfigures env f0
    rw [hc, e0] at h1
    rw [hs] at h2
    exact h2.trans h1
  · intro f0 f1 r f hc hs hr
    obtain ⟨spec, s, ref, acts, rfl, _⟩ := creationBlock_next_inv env sess _ _ hc
    have hsp : f1.h.Spec = none := by
      rcases stopBlock_next_inv env _ _ hs with ⟨rfl, _⟩ | ⟨base, rfl, _⟩ <;> rfl
    rw [reconfigureBlock_of_spec_none env f1 hsp] at hr
    cases hr
  · intro f0 f1 f2 hc hs hr
    have h1 := creationBlock_reconfigures env sess (entryFrame h cache)
    have h2 := stopBlock_reconfigures env f0
    rw [hc, e0] at h1
    rw [hs] at h2
    obtain ⟨spec, s, ref, acts, rfl, _⟩ := creationBlock_next_inv env sess _ _ hc
    have hsp : f1.h.Spec = none := by
      rcases stopBlock_next_inv env _ _ hs with ⟨rfl, _⟩ | ⟨base, rfl, _⟩ <;> rfl
    rw [reconfigureBlock_of_spec_none env f1 hsp] at hr
    cases hr
    rw [startBlock_reconfigures]
    exact h2.trans h1

/-! ### C1: a successful creation is visible whatever happens afterwards -/

/-- C1: for a Handle with no remote reference, a present spec, a session and no
cache entry for its id, if the create task succeeds then Commit returns (it
does not panic) and, whether it returns nil or the error of a later stop or
start, the cache holds the new Container under the Handle's id, exactly one
Created event has been published (for that id), the Handle's `vm` is bound to
the created resource, its `Spec` is nil, and no reconfigure was issued. -/
theorem Commit_creation_effects (env : Remote) (s : Session) (h : Handle)
    (cache : containerCache) (spec : ConfigSpec) (ref : ManagedObjectReference)
    (hvm : h.vm = none) (hspec : h.Spec = some spec)
    (hc : cache.Container h.ExecConfig.ID = none)
    (hcreate : (createTask env s spec).1 = .ok ref) :
    (Commit env (some s) h cache).ret ≠ .panic ∧
    (Commit env (some s) h cache).frame.Containers.Container h.ExecConfig.ID
      = some (newContainer { h.tocontainerBase with vm := some ref }) ∧
    published (Commit env (some s) h cache).frame.trace .ContainerCreated = [h.ExecConfig.ID] ∧
    (Commit env (some s) h cache).frame.h.vm = some ref ∧
    (Commit env (some s) h cache).frame.h.Spec = none ∧
    reconfigures (Commit env (some s) h cache).frame.trace = [] := by
  obtain ⟨hp, hr⟩ := createTask_quiet env s spec .ContainerCreated
  rcases hct : createTask env s spec with ⟨r, acts⟩
  rw [hct] at hcreate hp hr
  simp only at hcreate hp hr
  subst hcreate
  rw [Commit_of_vm_none env (some s) h cache hvm,
    creationBlock_ok env s (entryFrame h cache) spec ref acts hspec hc hct]
  simp only [Flow.andThen]
  rcases stopBlock_cases env _ with hs | hs | ⟨err, hs⟩ | ⟨err, hs⟩ | ⟨base, hs⟩ <;>
    rw [hs.1] <;> (try simp only [Flow.andThen]) <;>
    (try rw [reconfigureBlock_of_spec_none _ _ rfl]) <;> (try simp only [Flow.andThen]) <;>
    (try rcases startBlock_cases env _ with hs2 | hs2 | ⟨err2, hs2⟩ | hs2 <;> rw [hs2.1]) <;>
    simp_all [entryFrame, published_append, reconfigures_append, published, reconfigures,
      store_lookup, containerCache.Put, newContainer]

/-- Witness of C1: creating and starting `c1` on a remote side that succeeds. -/
theorem Commit_creation_effects_witness :
    newHandle.vm = none ∧ newHandle.Spec = some sampleSpec ∧
    containerCache.Container [] newHandle.ExecConfig.ID = none ∧
    (createTask okRemote sampleSession sampleSpec).1 = .ok "vm-1" ∧
    published (Commit okRemote (some sampleSession) newHandle []).frame.trace
      .ContainerCreated = ["c1"] ∧
    (Commit okRemote (some sampleSession) newHandle []).frame.h.Spec = none :=
  ⟨rfl, rfl, rfl, rfl,
    (Commit_creation_effects okRemote sampleSession newHandle [] sampleSpec "vm-1"
      rfl rfl rfl rfl).2.2.1,
    (Commit_creation_effects okRemote sampleSession newHandle [] sampleSpec "vm-1"
      rfl rfl rfl rfl).2.2.2.2.1⟩

/-! ### C2: the creation preconditions -/

/-- C2: for a Handle with no remote reference, Commit returns the missing-spec
error when `Spec` is nil (whatever the session and cache), otherwise the
missing-session error when the session is nil, otherwise the
duplicate-container error when the cache holds an entry for the id; in each
case nothing is issued or published (the trace is empty) and the cache and
the Handle are the ones passed in. -/
theorem Commit_creation_preconditions (env : Remote) (sess : Option Session) (h : Handle)
    (cache : containerCache) (hvm : h.vm = none) :
    (h.Spec = none → Commit env sess h cache =
      ⟨.error (.errorf "a spec must be provided for create operations"),
        ⟨h, cache.Container h.ExecConfig.ID, cache, []⟩⟩) ∧
    (h.Spec ≠ none → sess = none → Commit env sess h cache =
      ⟨.error (.errorf "no session provided for create operations"),
        ⟨h, cache.Container h.ExecConfig.ID, cache, []⟩⟩) ∧
    (h.Spec ≠ none → sess ≠ none → cache.Container h.ExecConfig.ID ≠ none →
      Commit env sess h cache =
      ⟨.error (.errorf "a container already exists in the cache with this ID"),
        ⟨h, cache.Container h.ExecConfig.ID, cache, []⟩⟩) := by
  refine ⟨?_, ?_, ?_⟩
  · intro hs
    simp [Commit, hvm, creationBlock, hs, Flow.andThen]
  · intro hs hn
    obtain ⟨spec, hs⟩ := Option.ne_none_iff_exists'.mp hs
    simp [Commit, hvm, creationBlock, hs, hn, Flow.andThen]
  · intro hs hn hc
    obtain ⟨spec, hs⟩ := Option.ne_none_iff_exists'.mp hs
    obtain ⟨s, hn⟩ := Option.ne_none_iff_exists'.mp hn
    obtain ⟨c, hc⟩ := Option.ne_none_iff_exists'.mp hc
    simp [Commit, hvm, creationBlock, hs, hn, hc, Flow.andThen]

/-- Witness of C2: a second creation of `c1` while the cache holds `c1`. -/
theorem Commit_creation_preconditions_witness :
    newHandle.vm = none ∧
    Commit okRemote (some sampleSession) newHandle [("c1", newContainer refreshedBase)] =
      ⟨.error (.errorf "a container already exists in the cache with this ID"),
        ⟨newHandle, some (newContainer refreshedBase),
          [("c1", newContainer refreshedBase)], []⟩⟩ :=
  ⟨rfl,
    (Commit_creation_preconditions okRemote (some sampleSession) newHandle
      [("c1", newContainer refreshedBase)] rfl).2.2 (by decide) (by decide) (by decide)⟩

/-! ### C3: the error of a failed reconfigure -/

/-- What the stop block leaves behind when it falls through. -/
theorem stopBlock_next_facts (env : Remote) (f f1 : Frame) (hs : stopBlock env f = .next f1) :
    f1.h.Spec = f.h.Spec ∧ f1.h.vm = f.h.vm ∧ f1.h.Migrated = f.h.Migrated ∧
    f1.h.ExecConfig = f.h.ExecConfig ∧ f1.h.targetState = f.h.targetState ∧
    f1.h.reload = f.h.reload ∧ f1.c = f.c ∧ f1.Containers = f.Containers ∧
    (if f.h.targetState = .StateStopped ∧ runtimeIs f.h.Runtime .poweredOff = false then
      ∃ base, env.updates = .ok base ∧ env.stop = none ∧ f.c ≠ none ∧
        f1.h.Config = base.Config ∧ f1.h.Runtime = base.Runtime ∧
        f1.trace = f.trace ++
          [.stop f.h.ExecConfig.ID,
           .publishContainerEvent f.h.ExecConfig.ID .ContainerStopped,
           .updates f.h.ExecConfig.ID]
    else f1.h.Config = f.h.Config ∧ f1.h.Runtime = f.h.Runtime ∧ f1.trace = f.trace) := by
  rcases stopBlock_next_inv env _ _ hs with ⟨rfl, hc⟩ | ⟨base, rfl, h1, h2, h3, h4, h5⟩
  · refine ⟨rfl, rfl, rfl, rfl, rfl, rfl, rfl, rfl, ?_⟩
    rw [if_neg]
    · exact ⟨rfl, rfl, rfl⟩
    · rintro ⟨ht, hr⟩
      rcases hc with hc | hc
      · exact hc ht
      · rw [hr] at hc; cases hc
  · refine ⟨rfl, rfl, rfl, rfl, rfl, rfl, rfl, rfl, ?_⟩
    rw [if_pos ⟨h3, h4⟩]
    exact ⟨base, h2, h1, h5, rfl, rfl, rfl⟩

theorem startBlock_h (env : Remote) (f : Frame) : (startBlock env f).frame.h = f.h := by
  rcases startBlock_cases env f with h | h | ⟨err, h⟩ | h <;> simp [h.1]

theorem runDeferred_h (o : Outcome) : (runDeferred o).frame.h = o.frame.h := by
  unfold runDeferred
  split <;> rfl

/-- A reconfigure that was issued and failed with `err` ends the Commit with
the value of lines 157-166 for `err`. -/
theorem reconfigure_failure_returns (env : Remote) (sess : Option Session) (h : Handle)
    (cache : containerCache) (vm : ManagedObjectReference) (s : ConfigSpec) (err : GoError)
    (hissued : (vm, s) ∈ reconfigures (Commit env sess h cache).frame.trace)
    (hfail : env.Reconfigure vm s = some err) :
    (Commit env sess h cache).ret = .error (reconfigureError err) := by
  cases hvm : h.vm with
  | none =>
    rw [Commit_creation_reconfigures env sess h cache hvm] at hissued
    simp at hissued
  | some vm0 =>
    revert hissued
    refine Commit_existing_rule env sess h cache vm0
      (fun out => (vm, s) ∈ reconfigures out.frame.trace →
        out.ret = .error (reconfigureError err)) hvm ?_ ?_ ?_
    · intro r f hs hi
      have h0 := stopBlock_reconfigures env (entryFrame h cache)
      rw [hs] at h0
      change reconfigures f.trace = [] at h0
      change (vm, s) ∈ reconfigures f.trace at hi
      rw [h0] at hi
      exact absurd hi (List.not_mem_nil _)
    · intro f1 r f hs hr hi
      have h1 := stopBlock_reconfigures env (entryFrame h cache)
      rw [hs] at h1
      change reconfigures f1.trace = [] at h1
      obtain ⟨spec, rt, _, _, hcase⟩ := reconfigureBlock_ret_inv env _ _ _ hr
      rcases hcase with ⟨_, rfl, _⟩ | ⟨cfg, _, rfl, _⟩ | ⟨cfg, v, e, rfl, rfl, _, _, he⟩
      · simp [h1] at hi
      · simp [h1] at hi
      · simp [reconfigures_append, h1] at hi
        simp [reconfigures] at hi
        obtain ⟨rfl, rfl⟩ := hi
        rw [he] at hfail
        cases hfail
        rfl
    · intro f1 f2 hs hr hi
      have h1 := stopBlock_reconfigures env (entryFrame h cache)
      rw [hs] at h1
      change reconfigures f1.trace = [] at h1
      rw [runDeferred_reconfigures, startBlock_reconfigures] at hi
      rcases reconfigureBlock_next_inv env _ _ hr with
        ⟨rfl, _⟩ | ⟨sp, rt, cfg, v, rfl, _, _, _, _, he⟩
      · simp [h1] at hi
      · simp [reconfigures_append, h1] at hi
        have hi2 : (vm, s) = (v, outgoingSpec sp cfg f1.h.Migrated) := by
          split at hi <;> simpa [reconfigures] using hi
        cases hi2
        rw [he] at hfail
        cases hfail

/-- C3: when a reconfigure is issued and fails with `err`, Commit returns
`ConcurrentAccessError{err}` if `err` carries a ConcurrentAccess fault and
`err` itself otherwise; so a ConcurrentAccess fault is never returned as the
bare failure, and another failure is never returned wrapped. -/
theorem Commit_reconfigure_failure (env : Remote) (sess : Option Session) (h : Handle)
    (cache : containerCache) (vm : ManagedObjectReference) (s : ConfigSpec) (err : GoError)
    (hissued : (vm, s) ∈ reconfigures (Commit env sess h cache).frame.trace)
    (hfail : env.Reconfigure vm s = some err) :
    (err.isConcurrentAccess = true →
      (Commit env sess h cache).ret = .error (.ConcurrentAccessError err)) ∧
    (err.isConcurrentAccess = false → (Commit env sess h cache).ret = .error err) ∧
    (err.isConcurrentAccess = true → (Commit env sess h cache).ret ≠ .error err) ∧
    (err.isConcurrentAccess = false →
      (Commit env sess h cache).ret ≠ .error (.ConcurrentAccessError err)) := by
  rw [reconfigure_failure_returns env sess h cache vm s err hissued hfail]
  refine ⟨?_, ?_, ?_, ?_⟩ <;> intro hca <;> simp [reconfigureError, hca]
  · exact GoError.ne_wrap err
  · exact fun h => GoError.ne_wrap err h.symm

/-- Witness of C3: the reconfigure of `existingHandle` meets a concurrent
modification and Commit returns the wrapped error. -/
theorem Commit_reconfigure_failure_witness :
    ("vm-1", outgoingSpec sampleSpec { ChangeVersion := "2" } false) ∈
      reconfigures (Commit conflictRemote none existingHandle sampleCache).frame.trace ∧
    (Commit conflictRemote none existingHandle sampleCache).ret =
      .error (.ConcurrentAccessError (.hasFault "reconfigure" (some .ConcurrentAccess))) :=
  ⟨by decide,
    (Commit_reconfigure_failure conflictRemote none existingHandle sampleCache "vm-1"
      (outgoingSpec sampleSpec { ChangeVersion := "2" } false)
      (.hasFault "reconfigure" (some .ConcurrentAccess)) (by decide) rfl).1 rfl⟩

/-! ### C4: the outgoing spec of a reconfigure -/

theorem outgoingSpec_ChangeVersion (spec : ConfigSpec) (cfg : ConfigInfo) (m : Bool) :
    (outgoingSpec spec cfg m).ChangeVersion = cfg.ChangeVersion := by
  cases m <;> rfl

theorem outgoingSpec_ExtraConfig (spec : ConfigSpec) (cfg : ConfigInfo) (m : Bool) :
    (outgoingSpec spec cfg m).ExtraConfig = if m then none else spec.ExtraConfig := by
  cases m <;> rfl

/-- The reconfigure that the reconfigure block adds to a trace without one:
its target, its spec, and the cached config it was built from. -/
theorem reconfigureBlock_issued (env : Remote) (f : Frame) (vm : ManagedObjectReference)
    (s : ConfigSpec) (h0 : reconfigures f.trace = [])
    (hi : (vm, s) ∈ reconfigures (reconfigureBlock env f).frame.trace) :
    ∃ spec cfg, f.h.Spec = some spec ∧ f.h.Config = some cfg ∧ f.h.vm = some vm ∧
      s = outgoingSpec spec cfg f.h.Migrated ∧
      (reconfigureBlock env f).frame.h.Config = some cfg := by
  rcases reconfigureBlock_cases env f with
    h | ⟨sp, rt, h⟩ | ⟨sp, rt, cfg, h⟩ | ⟨sp, rt, cfg, v, e2, h⟩ | ⟨sp, rt, cfg, v, h⟩ <;>
    rw [h.1] at hi ⊢ <;> simp only [Flow.frame, reconfigures_append, h0] at hi ⊢
  · exact absurd hi (List.not_mem_nil _)
  · exact absurd hi (List.not_mem_nil _)
  · exact absurd hi (List.not_mem_nil _)
  · have hi2 : (vm, s) = (v, outgoingSpec sp cfg f.h.Migrated) := by
      simpa [reconfigures] using hi
    cases hi2
    exact ⟨sp, cfg, h.2.1, h.2.2.2.1, h.2.2.2.2.1, rfl, h.2.2.2.1⟩
  · have hi2 : (vm, s) = (v, outgoingSpec sp cfg f.h.Migrated) := by
      split at hi <;> simpa [reconfigures] using hi
    cases hi2
    exact ⟨sp, cfg, h.2.1, h.2.2.2.1, h.2.2.2.2.1, rfl, h.2.2.2.1⟩

/-- C4: the outgoing spec `s` of every reconfigure that Commit issues is built
from the Handle's `Spec`: its ExtraConfig is nil if the Handle is migrated and
the spec's payload otherwise, and its version tag is that of the Handle's
cached config at the call, which is the config on entry when no power-off was
due and the config of the post-stop refresh otherwise (and is the config the
Handle still has when Commit ends). -/
theorem Commit_outgoing_spec (env : Remote) (sess : Option Session) (h : Handle)
    (cache : containerCache) (vm : ManagedObjectReference) (s : ConfigSpec)
    (hissued : (vm, s) ∈ reconfigures (Commit env sess h cache).frame.trace) :
    ∃ spec cfg, h.Spec = some spec ∧
      (if h.targetState = .StateStopped ∧ runtimeIs h.Runtime .poweredOff = false then
        ∃ base, env.updates = .ok base ∧ base.Config = some cfg
       else h.Config = some cfg) ∧
      (Commit env sess h cache).frame.h.Config = some cfg ∧
      s.ChangeVersion = cfg.ChangeVersion ∧
      (h.Migrated = true → s.ExtraConfig = none) ∧
      (h.Migrated = false → s.ExtraConfig = spec.ExtraConfig) := by
  cases hvm : h.vm with
  | none =>
    rw [Commit_creation_reconfigures env sess h cache hvm] at hissued
    exact absurd hissued (List.not_mem_nil _)
  | some vm0 =>
    revert hissued
    refine Commit_existing_rule env sess h cache vm0
      (fun out => (vm, s) ∈ reconfigures out.frame.trace →
        ∃ spec cfg, h.Spec = some spec ∧
          (if h.targetState = .StateStopped ∧ runtimeIs h.Runtime .poweredOff = false then
            ∃ base, env.updates = .ok base ∧ base.Config = some cfg
           else h.Config = some cfg) ∧
          out.frame.h.Config = some cfg ∧
          s.ChangeVersion = cfg.ChangeVersion ∧
          (h.Migrated = true → s.ExtraConfig = none) ∧
          (h.Migrated = false → s.ExtraConfig = spec.ExtraConfig)) hvm ?_ ?_ ?_
    · intro r f hs hi
      have h0 := stopBlock_reconfigures env (entryFrame h cache)
      rw [hs] at h0
      change reconfigures f.trace = [] at h0
      change (vm, s) ∈ reconfigures f.trace at hi
      rw [h0] at hi
      exact absurd hi (List.not_mem_nil _)
    · intro f1 r f hs hr hi
      have h1 := stopBlock_reconfigures env (entryFrame h cache)
      rw [hs] at h1
      change reconfigures f1.trace = [] at h1
      obtain ⟨hsp, _, hmig, _, _, _, _, _, hcfg⟩ := stopBlock_next_facts env _ _ hs
      have hi2 : (vm, s) ∈ reconfigures (reconfigureBlock env f1).frame.trace := by
        rw [hr]; exact hi
      obtain ⟨spec, cfg, e1, e2, _, rfl, e5⟩ := reconfigureBlock_issued env f1 vm s h1 hi2
      rw [hr] at e5
      refine ⟨spec, cfg, hsp ▸ e1, ?_, e5, outgoingSpec_ChangeVersion _ _ _, ?_, ?_⟩
      · change (if h.targetState = .StateStopped ∧ runtimeIs h.Runtime .poweredOff = false
          then _ else _) at hcfg
        by_cases hcnd : h.targetState = .StateStopped ∧ runtimeIs h.Runtime .poweredOff = false
        · rw [if_pos hcnd] at hcfg ⊢
          obtain ⟨base, hb, _, _, hc, _⟩ := hcfg
          exact ⟨base, hb, hc.symm.trans e2⟩
        · rw [if_neg hcnd] at hcfg ⊢
          exact hcfg.1.symm.trans e2
      · intro hm
        have : f1.h.Migrated = true := hmig.trans hm
        simp [outgoingSpec_ExtraConfig, this]
      · intro hm
        have : f1.h.Migrated = false := hmig.trans hm
        simp [outgoingSpec_ExtraConfig, this]
    · intro f1 f2 hs hr hi
      have h1 := stopBlock_reconfigures env (entryFrame h cache)
      rw [hs] at h1
      change reconfigures f1.trace = [] at h1
      obtain ⟨hsp, _, hmig, _, _, _, _, _, hcfg⟩ := stopBlock_next_facts env _ _ hs
      rw [runDeferred_reconfigures, startBlock_reconfigures] at hi
      have hi2 : (vm, s) ∈ reconfigures (reconfigureBlock env f1).frame.trace := by
        rw [hr]; exact hi
      obtain ⟨spec, cfg, e1, e2, _, rfl, e5⟩ := reconfigureBlock_issued env f1 vm s h1 hi2
      rw [hr] at e5
      rw [runDeferred_h, startBlock_h]
      refine ⟨spec, cfg, hsp ▸ e1, ?_, e5, outgoingSpec_ChangeVersion _ _ _, ?_, ?_⟩
      · change (if h.targetState = .StateStopped ∧ runtimeIs h.Runtime .poweredOff = false
          then _ else _) at hcfg
        by_cases hcnd : h.targetState = .StateStopped ∧ runtimeIs h.Runtime .poweredOff = false
        · rw [if_pos hcnd] at hcfg ⊢
          obtain ⟨base, hb, _, _, hc, _⟩ := hcfg
          exact ⟨base, hb, hc.symm.trans e2⟩
        · rw [if_neg hcnd] at hcfg ⊢
          exact hcfg.1.symm.trans e2
      · intro hm
        have : f1.h.Migrated = true := hmig.trans hm
        simp [outgoingSpec_ExtraConfig, this]
      · intro hm
        have : f1.h.Migrated = false := hmig.trans hm
        simp [outgoingSpec_ExtraConfig, this]

/-- Witness of C4: the reconfigure of the migrated handle carries no
ExtraConfig and the version tag `2` of the post-stop refresh. -/
theorem Commit_outgoing_spec_witness :
    ("vm-1", ({ Name := "web", ChangeVersion := "2", ExtraConfig := none } : ConfigSpec)) ∈
      reconfigures (Commit okRemote none migratedHandle sampleCache).frame.trace ∧
    ∃ spec cfg, migratedHandle.Spec = some spec ∧
      (if migratedHandle.targetState = .StateStopped ∧
          runtimeIs migratedHandle.Runtime .poweredOff = false then
        ∃ base, okRemote.updates = .ok base ∧ base.Config = some cfg
       else migratedHandle.Config = some cfg) ∧
      (Commit okRemote none migratedHandle sampleCache).frame.h.Config = some cfg ∧
      ({ Name := "web", ChangeVersion := "2", ExtraConfig := none } : ConfigSpec).ChangeVersion
        = cfg.ChangeVersion ∧
      (migratedHandle.Migrated = true →
        ({ Name := "web", ChangeVersion := "2", ExtraConfig := none } : ConfigSpec).ExtraConfig
          = none) ∧
      (migratedHandle.Migrated = false →
        ({ Name := "web", ChangeVersion := "2", ExtraConfig := none } : ConfigSpec).ExtraConfig
          = spec.ExtraConfig) :=
  ⟨by decide,
    Commit_outgoing_spec okRemote none migratedHandle sampleCache "vm-1"
      { Name := "web", ChangeVersion := "2", ExtraConfig := none } (by decide)⟩

/-! ### C5: duplicate power transitions are dropped -/

theorem stopBlock_skip (env : Remote) (f : Frame)
    (h : f.h.targetState ≠ .StateStopped ∨ runtimeIs f.h.Runtime .poweredOff = true) :
    stopBlock env f = .next f := by
  rcases h with h | h <;> simp [stopBlock, h]

theorem startBlock_skip (env : Remote) (f : Frame)
    (h : f.h.targetState ≠ .StateRunning ∨ runtimeIs f.h.Runtime .poweredOn = true) :
    startBlock env f = ⟨.nil, f⟩ := by
  rcases h with h | h <;> simp [startBlock, h]

/-- The two ways the deferred cache update can end. -/
theorem runDeferred_cases (o : Outcome) :
    (runDeferred o = ⟨.panic, o.frame⟩ ∧ o.frame.c = none) ∨
    (∃ c, runDeferred o =
        ⟨o.ret, { o.frame with
          c := some (c.RefreshFromHandle o.frame.h)
          Containers :=
            o.frame.Containers.store o.frame.h.ExecConfig.ID (c.RefreshFromHandle o.frame.h)
          trace := o.frame.trace ++ [.RefreshFromHandle o.frame.h.ExecConfig.ID] }⟩ ∧
      o.frame.c = some c) := by
  unfold runDeferred
  cases hc : o.frame.c with
  | none => simp
  | some c => simp

/-- When neither power transition is due, a Commit on an existing container
issues no power operation and no refresh, publishes no Stopped or Started
event, and every error it returns is that of a failed reconfigure. -/
theorem Commit_power_dropped (env : Remote) (sess : Option Session) (h : Handle)
    (cache : containerCache) (vm : ManagedObjectReference) (hvm : h.vm = some vm)
    (h1 : h.targetState ≠ .StateStopped ∨ runtimeIs h.Runtime .poweredOff = true)
    (h2 : h.targetState ≠ .StateRunning ∨ runtimeIs h.Runtime .poweredOn = true) :
    (∀ a ∈ (Commit env sess h cache).frame.trace,
      (∃ v s, a = .Reconfigure v s) ∨ (∃ id, a = .startGuestProgram id) ∨
      (∃ id, a = .RefreshFromHandle id)) ∧
    (∀ e, (Commit env sess h cache).ret = .error e →
      ∃ v s e0, (v, s) ∈ reconfigures (Commit env sess h cache).frame.trace ∧
        env.Reconfigure v s = some e0 ∧ e = reconfigureError e0) := by
  have hs0 : stopBlock env (entryFrame h cache) = .next (entryFrame h cache) :=
    stopBlock_skip env _ h1
  refine Commit_existing_rule env sess h cache vm
    (fun out => (∀ a ∈ out.frame.trace,
        (∃ v s, a = .Reconfigure v s) ∨ (∃ id, a = .startGuestProgram id) ∨
        (∃ id, a = .RefreshFromHandle id)) ∧
      (∀ e, out.ret = .error e →
        ∃ v s e0, (v, s) ∈ reconfigures out.frame.trace ∧
          env.Reconfigure v s = some e0 ∧ e = reconfigureError e0)) hvm ?_ ?_ ?_
  · intro r f hs
    rw [hs0] at hs
    cases hs
  · intro f1 r f hs hr
    rw [hs0] at hs
    cases hs
    obtain ⟨spec, rt, _, _, hcase⟩ := reconfigureBlock_ret_inv env _ _ _ hr
    rcases hcase with ⟨rfl, rfl, _⟩ | ⟨cfg, rfl, rfl, _⟩ | ⟨cfg, v, e, rfl, rfl, _, _, he⟩
    · simp [entryFrame]
    · simp [entryFrame]
    · refine ⟨by simp [entryFrame], ?_⟩
      intro e' he'
      cases he'
      exact ⟨v, _, e, by simp [entryFrame, reconfigures], he, rfl⟩
  · intro f1 f2 hs hr
    rw [hs0] at hs
    cases hs
    have hst : startBlock env f2 = ⟨.nil, f2⟩ := by
      apply startBlock_skip
      rcases reconfigureBlock_next_inv env _ _ hr with ⟨rfl, _⟩ | ⟨sp, rt, cfg, v, rfl, _⟩ <;>
        exact h2
    rw [hst]
    rcases runDeferred_cases ⟨.nil, f2⟩ with ⟨hd, _⟩ | ⟨c, hd, _⟩ <;> rw [hd] <;>
      rcases reconfigureBlock_next_inv env _ _ hr with ⟨rfl, _⟩ | ⟨sp, rt, cfg, v, rfl, _⟩
    · simp [entryFrame]
    · refine ⟨?_, by simp⟩
      simp only [entryFrame]
      split <;> simp
    · simp [entryFrame]
    · refine ⟨?_, by simp⟩
      simp only [entryFrame]
      split <;> simp

/-- C5: on a Handle with a remote reference, a stop asked for while the cached
runtime reports powered-off issues no power-off, no targeted refresh and no
Stopped event, and a start asked for while it reports powered-on issues no
power-on and no Started event; in both cases an error returned by Commit is the
error of a reconfigure that was issued and failed, not one of a power step. -/
theorem Commit_drops_duplicate_power (env : Remote) (sess : Option Session) (h : Handle)
    (cache : containerCache) (vm : ManagedObjectReference) (hvm : h.vm = some vm) :
    (h.targetState = .StateStopped → runtimeIs h.Runtime .poweredOff = true →
      (∀ id, Action.stop id ∉ (Commit env sess h cache).frame.trace) ∧
      (∀ id, Action.updates id ∉ (Commit env sess h cache).frame.trace) ∧
      published (Commit env sess h cache).frame.trace .ContainerStopped = [] ∧
      (∀ e, (Commit env sess h cache).ret = .error e →
        ∃ v s e0, (v, s) ∈ reconfigures (Commit env sess h cache).frame.trace ∧
          env.Reconfigure v s = some e0 ∧ e = reconfigureError e0)) ∧
    (h.targetState = .StateRunning → runtimeIs h.Runtime .poweredOn = true →
      (∀ id, Action.start id ∉ (Commit env sess h cache).frame.trace) ∧
      published (Commit env sess h cache).frame.trace .ContainerStarted = [] ∧
      (∀ e, (Commit env sess h cache).ret = .error e →
        ∃ v s e0, (v, s) ∈ reconfigures (Commit env sess h cache).frame.trace ∧
          env.Reconfigure v s = some e0 ∧ e = reconfigureError e0)) := by
  have quiet : ∀ tr : List Action,
      (∀ a ∈ tr, (∃ v s, a = .Reconfigure v s) ∨ (∃ id, a = .startGuestProgram id) ∨
        (∃ id, a = .RefreshFromHandle id)) →
      (∀ id, Action.stop id ∉ tr) ∧ (∀ id, Action.updates id ∉ tr) ∧
      (∀ id, Action.start id ∉ tr) ∧ ∀ e, published tr e = [] := by
    intro tr htr
    refine ⟨?_, ?_, ?_, ?_⟩
    · intro id hm
      rcases htr _ hm with ⟨_, _, h⟩ | ⟨_, h⟩ | ⟨_, h⟩ <;> cases h
    · intro id hm
      rcases htr _ hm with ⟨_, _, h⟩ | ⟨_, h⟩ | ⟨_, h⟩ <;> cases h
    · intro id hm
      rcases htr _ hm with ⟨_, _, h⟩ | ⟨_, h⟩ | ⟨_, h⟩ <;> cases h
    · intro e
      simp only [published, List.filterMap_eq_nil_iff]
      intro a hm
      rcases htr _ hm with ⟨_, _, rfl⟩ | ⟨_, rfl⟩ | ⟨_, rfl⟩ <;> rfl
  constructor
  · intro ht hoff
    obtain ⟨ha, he⟩ := Commit_power_dropped env sess h cache vm hvm (Or.inr hoff)
      (Or.inl (by rw [ht]; decide))
    obtain ⟨q1, q2, _, q4⟩ := quiet _ ha
    exact ⟨q1, q2, q4 _, he⟩
  · intro ht hon
    obtain ⟨ha, he⟩ := Commit_power_dropped env sess h cache vm hvm
      (Or.inl (by rw [ht]; decide)) (Or.inr hon)
    obtain ⟨_, _, q3, q4⟩ := quiet _ ha
    exact ⟨q3, q4 _, he⟩

/-- Witness of C5: stopping the already stopped `c1` on a remote side whose
power operations all fail issues nothing but the cache update and returns nil. -/
theorem Commit_drops_duplicate_power_witness :
    stoppedHandle.vm = some "vm-1" ∧ stoppedHandle.targetState = .StateStopped ∧
    runtimeIs stoppedHandle.Runtime .poweredOff = true ∧
    (∀ id, Action.stop id ∉ (Commit powerlessRemote none stoppedHandle sampleCache).frame.trace) ∧
    (Commit powerlessRemote none stoppedHandle sampleCache).ret = .nil :=
  ⟨rfl, rfl, rfl,
    ((Commit_drops_duplicate_power powerlessRemote none stoppedHandle sampleCache "vm-1"
      rfl).1 rfl rfl).1,
    by decide⟩

/-! ### C6: the returned value is the first failure -/

theorem firstFailure_append_of_none (fail : Action → Option GoError) (a b : List Action)
    (h : firstFailure fail a = none) : firstFailure fail (a ++ b) = firstFailure fail b := by
  induction a with
  | nil => rfl
  | cons x xs ih =>
    simp only [List.cons_append, firstFailure] at h ⊢
    cases hx : fail x with
    | none => rw [hx] at h; exact ih h
    | some e => rw [hx] at h; cases h

theorem firstFailure_append_of_some (fail : Action → Option GoError) (a b : List Action)
    (e : GoError) (h : firstFailure fail a = some e) : firstFailure fail (a ++ b) = some e := by
  induction a with
  | nil => cases h
  | cons x xs ih =>
    simp only [List.cons_append, firstFailure] at h ⊢
    cases hx : fail x with
    | none => rw [hx] at h; exact ih h
    | some e => rw [hx] at h; exact h

theorem quiet_append_of_none (fail : Action → Option GoError) (a b : List Action)
    (h : firstFailure fail a = none) :
    quietAfterFailure fail (a ++ b) = quietAfterFailure fail b := by
  induction a with
  | nil => rfl
  | cons x xs ih =>
    simp only [List.cons_append, firstFailure, quietAfterFailure] at h ⊢
    cases hx : fail x with
    | none => rw [hx] at h; exact ih h
    | some e => rw [hx] at h; cases h

theorem quiet_append_of_some (fail : Action → Option GoError) (a b : List Action)
    (e : GoError) (h : firstFailure fail a = some e) :
    quietAfterFailure fail (a ++ b) =
      (quietAfterFailure fail a && b.all (fun x => !x.isRemoteMutation)) := by
  induction a with
  | nil => cases h
  | cons x xs ih =>
    simp only [List.cons_append, firstFailure, quietAfterFailure] at h ⊢
    cases hx : fail x with
    | none => rw [hx] at h; exact ih h
    | some e => simp [List.all_append]

theorem quiet_of_none (fail : Action → Option GoError) (a : List Action)
    (h : firstFailure fail a = none) : quietAfterFailure fail a = true := by
  induction a with
  | nil => rfl
  | cons x xs ih =>
    simp only [firstFailure, quietAfterFailure] at h ⊢
    cases hx : fail x with
    | none => rw [hx] at h; exact ih h
    | some e => rw [hx] at h; cases h

theorem firstFailure_eq_none_iff (fail : Action → Option GoError) (a : List Action) :
    firstFailure fail a = none ↔ ∀ x ∈ a, fail x = none := by
  induction a with
  | nil => simp [firstFailure]
  | cons x xs ih =>
    simp only [firstFailure, List.mem_cons, forall_eq_or_imp]
    cases hx : fail x with
    | none => simpa using ih
    | some e => simp

theorem stopBlock_accounted (env : Remote) (f : Frame)
    (h0 : firstFailure env.stepFailure f.trace = none) :
    match stopBlock env f with
    | .next f1 => firstFailure env.stepFailure f1.trace = none
    | .ret r f1 => accountedFor env r f1.trace := by
  rcases stopBlock_cases env f with h | h | ⟨err, h⟩ | ⟨err, h⟩ | ⟨base, h⟩ <;> rw [h.1]
  · simpa using h0
  · simp [accountedFor, quiet_of_none _ _ h0, h0]
  · simp [accountedFor, firstFailure_append_of_none _ _ _ h0, quiet_append_of_none _ _ _ h0,
      firstFailure, quietAfterFailure, Remote.stepFailure, h.2.1]
  · simp [accountedFor, firstFailure_append_of_none _ _ _ h0, quiet_append_of_none _ _ _ h0,
      firstFailure, quietAfterFailure, Remote.stepFailure, h.2.1, h.2.2.1]
  · simp [firstFailure_append_of_none _ _ _ h0, firstFailure, Remote.stepFailure, h.2.1,
      h.2.2.1]

theorem reconfigureBlock_accounted (env : Remote) (f : Frame)
    (h0 : firstFailure env.stepFailure f.trace = none) :
    match reconfigureBlock env f with
    | .next f1 => firstFailure env.stepFailure f1.trace = none
    | .ret r f1 => accountedFor env r f1.trace := by
  rcases reconfigureBlock_cases env f with
    h | ⟨sp, rt, h⟩ | ⟨sp, rt, cfg, h⟩ | ⟨sp, rt, cfg, v, e2, h⟩ | ⟨sp, rt, cfg, v, h⟩ <;>
    rw [h.1]
  · simpa using h0
  · simp [accountedFor, quiet_of_none _ _ h0, h0]
  · simp [accountedFor, quiet_of_none _ _ h0, h0]
  · simp [accountedFor, firstFailure_append_of_none _ _ _ h0, quiet_append_of_none _ _ _ h0,
      firstFailure, quietAfterFailure, Remote.stepFailure, h.2.2.2.2.2]
  · simp only [List.append_assoc, firstFailure_append_of_none _ _ _ h0]
    split <;> simp [firstFailure, Remote.stepFailure, h.2.2.2.2.2]

theorem startBlock_accounted (env : Remote) (f : Frame)
    (h0 : firstFailure env.stepFailure f.trace = none) :
    accountedFor env (startBlock env f).ret (startBlock env f).frame.trace := by
  rcases startBlock_cases env f with h | h | ⟨err, h⟩ | h <;> rw [h.1]
  · simp [accountedFor, quiet_of_none _ _ h0, h0]
  · simp [accountedFor, quiet_of_none _ _ h0, h0]
  · simp [accountedFor, firstFailure_append_of_none _ _ _ h0, quiet_append_of_none _ _ _ h0,
      firstFailure, quietAfterFailure, Remote.stepFailure, h.2.1]
  · simp [accountedFor, firstFailure_append_of_none _ _ _ h0, quiet_append_of_none _ _ _ h0,
      firstFailure, quietAfterFailure, Remote.stepFailure, h.2.1]

theorem deferredStart_accounted (env : Remote) (f : Frame)
    (h0 : firstFailure env.stepFailure f.trace = none) :
    accountedFor env (runDeferred (startBlock env f)).ret
      (runDeferred (startBlock env f)).frame.trace := by
  rcases startBlock_cases env f with h | h | ⟨err, h⟩ | h <;> rw [h.1] <;>
    rcases runDeferred_cases _ with ⟨hd, hc⟩ | ⟨c, hd, hc⟩ <;> rw [hd]
  · simp [accountedFor, quiet_of_none _ _ h0, h0]
  · simp [accountedFor, firstFailure_append_of_none _ _ _ h0, quiet_append_of_none _ _ _ h0,
      firstFailure, quietAfterFailure, Remote.stepFailure]
  · simp [accountedFor, quiet_of_none _ _ h0, h0]
  · simp [accountedFor, firstFailure_append_of_none _ _ _ h0, quiet_append_of_none _ _ _ h0,
      firstFailure, quietAfterFailure, Remote.stepFailure]
  · exact absurd hc h.2.2.2.2
  · simp [accountedFor, firstFailure_append_of_none _ _ _ h0, quiet_append_of_none _ _ _ h0,
      firstFailure, quietAfterFailure, Remote.stepFailure, h.2.1, Action.isRemoteMutation]
  · exact absurd hc h.2.2.2.2
  · simp [accountedFor, firstFailure_append_of_none _ _ _ h0, quiet_append_of_none _ _ _ h0,
      firstFailure, quietAfterFailure, Remote.stepFailure, h.2.1]

theorem createTask_accounted (env : Remote) (s : Session) (spec : ConfigSpec)
    (r : Except GoError ManagedObjectReference) (acts : List Action)
    (h : createTask env s spec = (r, acts)) :
    (∀ err, r = .error err → firstFailure env.stepFailure acts = some err ∧
        quietAfterFailure env.stepFailure acts = true) ∧
    (∀ ref, r = .ok ref → firstFailure env.stepFailure acts = none) := by
  rcases createTask_acts env s spec r acts h with ⟨rfl, rfl⟩ | ⟨rfl, err, rfl, hf⟩ | ⟨rfl, rfl, hf⟩
  · constructor <;> intro x hx <;>
      simp [firstFailure, quietAfterFailure, Remote.stepFailure, hx]
  · constructor <;> intro x hx
    · cases hx
      simp [firstFailure, quietAfterFailure, Remote.stepFailure, hf]
    · cases hx
  · constructor <;> intro x hx <;>
      simp [firstFailure, quietAfterFailure, Remote.stepFailure, hx, hf]

theorem creationBlock_accounted (env : Remote) (sess : Option Session) (h : Handle)
    (cache : containerCache) (hvm : h.vm = none)
    (hpre : preconditionError sess h cache = none) :
    match creationBlock env sess (entryFrame h cache) with
    | .next f1 => firstFailure env.stepFailure f1.trace = none
    | .ret r f1 => accountedFor env r f1.trace := by
  rcases creationBlock_cases env sess (entryFrame h cache) with
    hc | ⟨spec, hc⟩ | ⟨spec, s, c, hc⟩ | ⟨spec, s, err, acts, hc⟩ | ⟨spec, s, ref, acts, hc⟩
  · have := hc.2
    simp [preconditionError, hvm, entryFrame] at hpre this
    simp [this] at hpre
  · obtain ⟨_, h1, h2⟩ := hc
    simp [preconditionError, hvm, entryFrame] at hpre h1
    simp [h1, h2] at hpre
  · obtain ⟨_, h1, h2, h3⟩ := hc
    simp [preconditionError, hvm, entryFrame] at hpre h1 h3
    simp [h1, h2, h3] at hpre
  · rw [hc.1]
    have := (createTask_accounted env s spec _ _ hc.2.2.2.2).1 err rfl
    simp [accountedFor, entryFrame, this.1, this.2]
  · rw [hc.1]
    have := (createTask_accounted env s spec _ _ hc.2.2.2.2).2 ref rfl
    simp [entryFrame, firstFailure_append_of_none _ _ _ this, firstFailure,
      Remote.stepFailure]

/-- A failed precondition check is returned at once. -/
theorem Commit_precondition_error (env : Remote) (sess : Option Session) (h : Handle)
    (cache : containerCache) (e : GoError) (hpre : preconditionError sess h cache = some e) :
    Commit env sess h cache = ⟨.error e, entryFrame h cache⟩ := by
  cases hvm : h.vm with
  | some vm => simp [preconditionError, hvm] at hpre
  | none =>
    rw [Commit_of_vm_none env sess h cache hvm]
    rcases creationBlock_cases env sess (entryFrame h cache) with
      hc | ⟨spec, hc⟩ | ⟨spec, s, c, hc⟩ | ⟨spec, s, err, acts, hc⟩ | ⟨spec, s, ref, acts, hc⟩
    · have h1 := hc.2
      simp only [entryFrame] at h1
      simp [preconditionError, hvm, h1] at hpre
      simp [hc.1, Flow.andThen, hpre]
    · obtain ⟨hc, h1, h2⟩ := hc
      simp only [entryFrame] at h1
      simp [preconditionError, hvm, h1, h2] at hpre
      simp [hc, Flow.andThen, hpre]
    · obtain ⟨hc, h1, h2, h3⟩ := hc
      simp only [entryFrame] at h1 h3
      simp [preconditionError, hvm, h1, h2, h3] at hpre
      simp [hc, Flow.andThen, hpre]
    · obtain ⟨hc, h1, h2, h3, _⟩ := hc
      simp only [entryFrame] at h1 h3
      simp [preconditionError, hvm, h1, h2, h3] at hpre
    · obtain ⟨hc, h1, h2, h3, _⟩ := hc
      simp only [entryFrame] at h1 h3
      simp [preconditionError, hvm, h1, h2, h3] at hpre

/-- Once the precondition checks pass, the value returned is accounted for by
the steps issued. -/
theorem Commit_accounted (env : Remote) (sess : Option Session) (h : Handle)
    (cache : containerCache) (hpre : preconditionError sess h cache = none) :
    accountedFor env (Commit env sess h cache).ret (Commit env sess h cache).frame.trace := by
  have e0 : firstFailure env.stepFailure (entryFrame h cache).trace = none := rfl
  cases hvm : h.vm with
  | none =>
    have hcr := creationBlock_accounted env sess h cache hvm hpre
    refine Commit_creation_rule env sess h cache
      (fun out => accountedFor env out.ret out.frame.trace) hvm ?_ ?_ ?_ ?_
    · intro r f hc
      rw [hc] at hcr
      exact hcr
    · intro f0 r f hc hs
      rw [hc] at hcr
      have := stopBlock_accounted env f0 hcr
      rw [hs] at this
      exact this
    · intro f0 f1 r f hc hs hr
      rw [hc] at hcr
      have h1 := stopBlock_accounted env f0 hcr
      rw [hs] at h1
      have h2 := reconfigureBlock_accounted env f1 h1
      rw [hr] at h2
      exact h2
    · intro f0 f1 f2 hc hs hr
      rw [hc] at hcr
      have h1 := stopBlock_accounted env f0 hcr
      rw [hs] at h1
      have h2 := reconfigureBlock_accounted env f1 h1
      rw [hr] at h2
      exact startBlock_accounted env f2 h2
  | some vm =>
    refine Commit_existing_rule env sess h cache vm
      (fun out => accountedFor env out.ret out.frame.trace) hvm ?_ ?_ ?_
    · intro r f hs
      have := stopBlock_accounted env _ e0
      rw [hs] at this
      exact this
    · intro f1 r f hs hr
      have h1 := stopBlock_accounted env _ e0
      rw [hs] at h1
      have h2 := reconfigureBlock_accounted env f1 h1
      rw [hr] at h2
      exact h2
    · intro f1 f2 hs hr
      have h1 := stopBlock_accounted env _ e0
      rw [hs] at h1
      have h2 := reconfigureBlock_accounted env f1 h1
      rw [hr] at h2
      exact deferredStart_accounted env f2 h2

/-- C6 as stated fails, twice.  When the lookup of the datacenter folders
fails, the precondition checks pass and none of the steps the claim lists is
even issued, yet Commit returns the lookup's error.  And on a Handle with a
remote reference whose id is not in the cache, with nothing to do, no check and
no step fails, yet Commit does not return nil: it panics on the absent
Container. -/
theorem Commit_nil_not_iff_listed_steps :
    ¬ ((Commit foldersRemote (some sampleSession) newHandle []).ret = .nil ↔
        (preconditionError (some sampleSession) newHandle [] = none ∧
         ∀ a ∈ (Commit foldersRemote (some sampleSession) newHandle []).frame.trace,
           foldersRemote.listedFailure a = none)) ∧
    ¬ ((Commit okRemote none uncachedHandle sampleCache).ret = .nil ↔
        (preconditionError none uncachedHandle sampleCache = none ∧
         ∀ a ∈ (Commit okRemote none uncachedHandle sampleCache).frame.trace,
           okRemote.stepFailure a = none)) := by
  decide

/-- The value Commit returns: nil exactly when it does not panic and no check
or step failed, an error exactly when one failed, then that of the first one;
nothing is issued after a failure; the reload's answer changes nothing. -/
theorem result_is_first_failure (env : Remote) (sess : Option Session) (h : Handle)
    (cache : containerCache) :
    ((Commit env sess h cache).ret = .nil ↔
      (Commit env sess h cache).ret ≠ .panic ∧ preconditionError sess h cache = none ∧
      ∀ a ∈ (Commit env sess h cache).frame.trace, env.stepFailure a = none) ∧
    (∀ e, (Commit env sess h cache).ret = .error e ↔
      preconditionError sess h cache = some e ∨
      (preconditionError sess h cache = none ∧
        firstFailure env.stepFailure (Commit env sess h cache).frame.trace = some e)) ∧
    quietAfterFailure env.stepFailure (Commit env sess h cache).frame.trace = true ∧
    (∀ x, Commit { env with startGuestProgram := x } sess h cache = Commit env sess h cache) := by
  refine ⟨?_, ?_, ?_, fun x => rfl⟩
  · cases hpre : preconditionError sess h cache with
    | some e => simp [Commit_precondition_error env sess h cache e hpre]
    | none =>
      obtain ⟨h1, _⟩ := Commit_accounted env sess h cache hpre
      rw [← firstFailure_eq_none_iff]
      cases hf : firstFailure env.stepFailure (Commit env sess h cache).frame.trace with
      | some e =>
        rw [hf] at h1
        simp only at h1
        simp [h1]
      | none =>
        rw [hf] at h1
        simp only at h1
        rcases h1 with h1 | h1 <;> simp [h1]
  · intro e
    cases hpre : preconditionError sess h cache with
    | some e0 =>
      simp [Commit_precondition_error env sess h cache e0 hpre]
    | none =>
      obtain ⟨h1, _⟩ := Commit_accounted env sess h cache hpre
      cases hf : firstFailure env.stepFailure (Commit env sess h cache).frame.trace with
      | some e1 =>
        rw [hf] at h1
        simp only at h1
        simp [h1]
      | none =>
        rw [hf] at h1
        simp only at h1
        rcases h1 with h1 | h1 <;> simp [h1]
  · cases hpre : preconditionError sess h cache with
    | some e =>
      rw [Commit_precondition_error env sess h cache e hpre]
      rfl
    | none => exact (Commit_accounted env sess h cache hpre).2

/-! ### C7: the deferred cache update -/

theorem stopBlock_cacheRefreshes (env : Remote) (f : Frame) :
    cacheRefreshes (stopBlock env f).frame.trace = cacheRefreshes f.trace := by
  rcases stopBlock_cases env f with h | h | ⟨err, h⟩ | ⟨err, h⟩ | ⟨base, h⟩ <;>
    simp [h.1, Flow.frame, cacheRefreshes_append, cacheRefreshes]

theorem reconfigureBlock_cacheRefreshes (env : Remote) (f : Frame) :
    cacheRefreshes (reconfigureBlock env f).frame.trace = cacheRefreshes f.trace := by
  rcases reconfigureBlock_cases env f with
    h | ⟨sp, rt, h⟩ | ⟨sp, rt, cfg, h⟩ | ⟨sp, rt, cfg, v, e2, h⟩ | ⟨sp, rt, cfg, v, h⟩ <;>
    rw [h.1] <;> simp only [Flow.frame, cacheRefreshes_append]
  · simp [cacheRefreshes]
  · split <;> simp [cacheRefreshes]

/-- What the reconfigure block leaves untouched when it falls through. -/
theorem reconfigureBlock_next_facts (env : Remote) (f f1 : Frame)
    (hr : reconfigureBlock env f = .next f1) :
    f1.c = f.c ∧ f1.Containers = f.Containers ∧ f1.h.tocontainerBase = f.h.tocontainerBase ∧
    f1.h.targetState = f.h.targetState ∧ f1.h.reload = f.h.reload := by
  rcases reconfigureBlock_next_inv env _ _ hr with ⟨rfl, _⟩ | ⟨sp, rt, cfg, v, rfl, _⟩ <;>
    exact ⟨rfl, rfl, rfl, rfl, rfl⟩

/-- The start block changes nothing but the trace, to which it adds only the
power-on and the Started event. -/
theorem startBlock_frame (env : Remote) (f : Frame) :
    (startBlock env f).frame.h = f.h ∧ (startBlock env f).frame.c = f.c ∧
    (startBlock env f).frame.Containers = f.Containers ∧
    ∃ acts, (startBlock env f).frame.trace = f.trace ++ acts ∧
      ∀ a ∈ acts, a = .start f.h.ExecConfig.ID ∨
        a = .publishContainerEvent f.h.ExecConfig.ID .ContainerStarted := by
  rcases startBlock_cases env f with h | h | ⟨err, h⟩ | h <;> rw [h.1] <;>
    refine ⟨rfl, rfl, rfl, ?_⟩
  · exact ⟨[], by simp⟩
  · exact ⟨[], by simp⟩
  · exact ⟨[.start f.h.ExecConfig.ID], rfl, by simp⟩
  · exact ⟨[.start f.h.ExecConfig.ID,
      .publishContainerEvent f.h.ExecConfig.ID .ContainerStarted], rfl, by simp⟩

/-- C7 as stated fails, twice.  The power-off of `existingHandle` fails, Commit
returns that error, and the cache entry is not updated from the Handle.  And
with no cached config while a spec and a runtime are present, no step fails, yet
Commit panics at line 141 and the cache entry is not updated either. -/
theorem Commit_cache_update_skipped :
    (existingHandle.vm = some "vm-1" ∧
      (Commit powerlessRemote none existingHandle sampleCache).ret =
        .error (.errorf "power off failed") ∧
      cacheRefreshes (Commit powerlessRemote none existingHandle sampleCache).frame.trace = [] ∧
      (Commit powerlessRemote none existingHandle sampleCache).frame.Containers = sampleCache) ∧
    (configlessHandle.vm = some "vm-1" ∧
      sampleCache.Container configlessHandle.ExecConfig.ID =
        some (newContainer existingHandle.tocontainerBase) ∧
      (Commit okRemote none configlessHandle sampleCache).ret = .panic ∧
      (∀ a ∈ (Commit okRemote none configlessHandle sampleCache).frame.trace,
        okRemote.stepFailure a = none) ∧
      cacheRefreshes (Commit okRemote none configlessHandle sampleCache).frame.trace = [] ∧
      (Commit okRemote none configlessHandle sampleCache).frame.Containers = sampleCache) := by
  decide

/-- For a Commit that returns, on a Handle with a remote reference whose id is
in the cache: the cache entry is updated at most once, exactly once precisely
when the power-off, the post-stop refresh and the reconfigure did not fail, and
then holds the Handle's state at the end of the Commit. -/
theorem cache_update_when_returning (env : Remote) (sess : Option Session) (h : Handle)
    (cache : containerCache) (vm : ManagedObjectReference) (c : Container)
    (hvm : h.vm = some vm) (hc : cache.Container h.ExecConfig.ID = some c)
    (hret : (Commit env sess h cache).ret ≠ .panic) :
    (cacheRefreshes (Commit env sess h cache).frame.trace = [h.ExecConfig.ID] ∨
      cacheRefreshes (Commit env sess h cache).frame.trace = []) ∧
    (cacheRefreshes (Commit env sess h cache).frame.trace = [h.ExecConfig.ID] ↔
      ∀ a ∈ (Commit env sess h cache).frame.trace,
        a.isStopOrReconfigure = true → env.stepFailure a = none) ∧
    (cacheRefreshes (Commit env sess h cache).frame.trace = [h.ExecConfig.ID] →
      (Commit env sess h cache).frame.Containers.Container h.ExecConfig.ID =
        some (c.RefreshFromHandle (Commit env sess h cache).frame.h)) := by
  have e0 : firstFailure env.stepFailure (entryFrame h cache).trace = none := rfl
  revert hret
  refine Commit_existing_rule env sess h cache vm
    (fun out => out.ret ≠ .panic →
      (cacheRefreshes out.frame.trace = [h.ExecConfig.ID] ∨
        cacheRefreshes out.frame.trace = []) ∧
      (cacheRefreshes out.frame.trace = [h.ExecConfig.ID] ↔
        ∀ a ∈ out.frame.trace, a.isStopOrReconfigure = true → env.stepFailure a = none) ∧
      (cacheRefreshes out.frame.trace = [h.ExecConfig.ID] →
        out.frame.Containers.Container h.ExecConfig.ID =
          some (c.RefreshFromHandle out.frame.h))) hvm ?_ ?_ ?_
  · intro r f hs hnp
    obtain ⟨_, _, hcase⟩ := stopBlock_ret_inv env _ _ _ hs
    rcases hcase with ⟨rfl, _⟩ | ⟨e, rfl, rfl, he, _⟩ | ⟨e, rfl, rfl, he1, he2, _⟩
    · exact absurd rfl hnp
    · simp [entryFrame, cacheRefreshes, Action.isStopOrReconfigure, Remote.stepFailure, he]
    · simp [entryFrame, cacheRefreshes, Action.isStopOrReconfigure, Remote.stepFailure, he1,
        he2]
  · intro f1 r f hs hr hnp
    have h1 := stopBlock_cacheRefreshes env (entryFrame h cache)
    rw [hs] at h1
    change cacheRefreshes f1.trace = [] at h1
    obtain ⟨spec, rt, _, _, hcase⟩ := reconfigureBlock_ret_inv env _ _ _ hr
    rcases hcase with ⟨rfl, _⟩ | ⟨cfg, rfl, _⟩ | ⟨cfg, v, e, rfl, rfl, _, _, he⟩
    · exact absurd rfl hnp
    · exact absurd rfl hnp
    · have cr : cacheRefreshes
          (f1.trace ++ [Action.Reconfigure v (outgoingSpec spec cfg f1.h.Migrated)]) = [] := by
        rw [cacheRefreshes_append, h1]
        rfl
      dsimp only
      rw [cr]
      refine ⟨Or.inr rfl, ⟨fun hh => (by cases hh), fun hh => ?_⟩, fun hh => (by cases hh)⟩
      have := hh _ (List.mem_append_right _ (List.mem_singleton_self _)) rfl
      simp [Remote.stepFailure, he] at this
  · intro f1 f2 hs hr _
    have h1 := stopBlock_cacheRefreshes env (entryFrame h cache)
    rw [hs] at h1
    change cacheRefreshes f1.trace = [] at h1
    have h2 := reconfigureBlock_cacheRefreshes env f1
    rw [hr, h1] at h2
    change cacheRefreshes f2.trace = [] at h2
    have a1 := stopBlock_accounted env _ e0
    rw [hs] at a1
    have a2 := reconfigureBlock_accounted env f1 a1
    rw [hr] at a2
    replace a2 := (firstFailure_eq_none_iff _ _).mp a2
    obtain ⟨_, _, _, hid, _, _, hc1, _⟩ := stopBlock_next_facts env _ _ hs
    obtain ⟨hc2, _, hb2, _⟩ := reconfigureBlock_next_facts env _ _ hr
    have hid2 : f2.h.ExecConfig = h.ExecConfig := by
      have : f2.h.ExecConfig = f1.h.ExecConfig := congrArg containerBase.ExecConfig hb2
      exact this.trans hid
    obtain ⟨sh, sc, sC, acts, st, sa⟩ := startBlock_frame env f2
    have hcs : (startBlock env f2).frame.c = some c := by
      rw [sc, hc2, hc1]
      exact hc
    rcases runDeferred_cases (startBlock env f2) with ⟨_, hn⟩ | ⟨c0, hd, hc0⟩
    · rw [hcs] at hn
      cases hn
    · rw [hcs] at hc0
      cases hc0
      rw [hd]
      simp only [sh, st, hid2]
      have hq : cacheRefreshes acts = [] := by
        simp only [cacheRefreshes, List.filterMap_eq_nil_iff]
        intro a ha
        rcases sa a ha with rfl | rfl <;> rfl
      refine ⟨Or.inl ?_, ⟨fun _ => ?_, fun _ => ?_⟩, fun _ => ?_⟩
      · rw [cacheRefreshes_append, cacheRefreshes_append, h2, hq]
        rfl
      · intro a ha hk
        simp only [List.mem_append, List.mem_singleton] at ha
        rcases ha with (ha | ha) | rfl
        · exact a2 a ha
        · rcases sa a ha with rfl | rfl <;> cases hk
        · cases hk
      · rw [cacheRefreshes_append, cacheRefreshes_append, h2, hq]
        rfl
      · exact store_lookup _ _ _

/-- On a cached, existing container a Commit that panics has not updated the
cache. -/
theorem Commit_panic_no_refresh (env : Remote) (sess : Option Session) (h : Handle)
    (cache : containerCache) (vm : ManagedObjectReference) (c : Container)
    (hvm : h.vm = some vm) (hc : cache.Container h.ExecConfig.ID = some c)
    (hp : (Commit env sess h cache).ret = .panic) :
    cacheRefreshes (Commit env sess h cache).frame.trace = [] := by
  revert hp
  refine Commit_existing_rule env sess h cache vm
    (fun out => out.ret = .panic → cacheRefreshes out.frame.trace = []) hvm ?_ ?_ ?_
  · intro r f hs _
    have h1 := stopBlock_cacheRefreshes env (entryFrame h cache)
    rw [hs] at h1
    exact h1
  · intro f1 r f hs hr _
    have h1 := stopBlock_cacheRefreshes env (entryFrame h cache)
    rw [hs] at h1
    change cacheRefreshes f1.trace = [] at h1
    have h2 := reconfigureBlock_cacheRefreshes env f1
    rw [hr, h1] at h2
    exact h2
  · intro f1 f2 hs hr hp
    obtain ⟨_, _, _, _, _, _, hc1, _⟩ := stopBlock_next_facts env _ _ hs
    obtain ⟨hc2, _⟩ := reconfigureBlock_next_facts env _ _ hr
    have hcs : f2.c = some c := by
      rw [hc2, hc1]
      exact hc
    obtain ⟨_, sc, _⟩ := startBlock_frame env f2
    rcases runDeferred_cases (startBlock env f2) with ⟨_, hn⟩ | ⟨c0, hd, _⟩
    · rw [sc, hcs] at hn
      cases hn
    · rw [hd] at hp
      rcases startBlock_cases env f2 with h1 | h1 | ⟨err, h1⟩ | h1
      · rw [h1.1] at hp
        cases hp
      · have := h1.2.2.2
        rw [hcs] at this
        cases this
      · rw [h1.1] at hp
        cases hp
      · rw [h1.1] at hp
        cases hp

/-- C7, amended: on a Handle with a remote reference whose id is in the cache,
when Commit returns (does not panic) the cache entry is updated from the Handle
at most once, and exactly once if and only if neither the power-off, the
post-stop refresh nor the reconfigure failed, whatever the outcome of the
power-on, and the entry then holds the Handle's state at the end of the Commit;
when one of those three steps fails, Commit returns the error of the first
failed step (that of a reconfigure as lines 157-166 return it) and the update
is not performed; when Commit panics the update is not performed either. -/
theorem Commit_cache_update (env : Remote) (sess : Option Session) (h : Handle)
    (cache : containerCache) (vm : ManagedObjectReference) (c : Container)
    (hvm : h.vm = some vm) (hc : cache.Container h.ExecConfig.ID = some c) :
    ((Commit env sess h cache).ret ≠ .panic →
      (cacheRefreshes (Commit env sess h cache).frame.trace = [h.ExecConfig.ID] ∨
        cacheRefreshes (Commit env sess h cache).frame.trace = []) ∧
      (cacheRefreshes (Commit env sess h cache).frame.trace = [h.ExecConfig.ID] ↔
        ∀ a ∈ (Commit env sess h cache).frame.trace,
          a.isStopOrReconfigure = true → env.stepFailure a = none) ∧
      (cacheRefreshes (Commit env sess h cache).frame.trace = [h.ExecConfig.ID] →
        (Commit env sess h cache).frame.Containers.Container h.ExecConfig.ID =
          some (c.RefreshFromHandle (Commit env sess h cache).frame.h))) ∧
    ((∃ a ∈ (Commit env sess h cache).frame.trace,
        a.isStopOrReconfigure = true ∧ env.stepFailure a ≠ none) →
      ∃ e, firstFailure env.stepFailure (Commit env sess h cache).frame.trace = some e ∧
        (Commit env sess h cache).ret = .error e ∧
        cacheRefreshes (Commit env sess h cache).frame.trace = []) ∧
    ((Commit env sess h cache).ret = .panic →
      cacheRefreshes (Commit env sess h cache).frame.trace = []) := by
  refine ⟨fun hret => cache_update_when_returning env sess h cache vm c hvm hc hret, ?_,
    fun hp => Commit_panic_no_refresh env sess h cache vm c hvm hc hp⟩
  rintro ⟨a, ha, hk, hf⟩
  have hpre : preconditionError sess h cache = none := by simp [preconditionError, hvm]
  obtain ⟨hacc, _⟩ := Commit_accounted env sess h cache hpre
  cases hff : firstFailure env.stepFailure (Commit env sess h cache).frame.trace with
  | none => exact absurd ((firstFailure_eq_none_iff _ _).mp hff a ha) hf
  | some e =>
    rw [hff] at hacc
    simp only at hacc
    have hret : (Commit env sess h cache).ret ≠ .panic := by rw [hacc]; simp
    obtain ⟨hA, hB, _⟩ := cache_update_when_returning env sess h cache vm c hvm hc hret
    refine ⟨e, rfl, hacc, ?_⟩
    rcases hA with hA | hA
    · exact absurd (hB.mp hA a ha hk) hf
    · exact hA

/-- Witness of C7: the stop, the refresh and the reconfigure of
`existingHandle` succeed and the cache entry is updated once. -/
theorem Commit_cache_update_witness :
    existingHandle.vm = some "vm-1" ∧
    sampleCache.Container existingHandle.ExecConfig.ID =
      some (newContainer existingHandle.tocontainerBase) ∧
    (Commit okRemote none existingHandle sampleCache).ret ≠ .panic ∧
    cacheRefreshes (Commit okRemote none existingHandle sampleCache).frame.trace = ["c1"] ∧
    (cacheRefreshes (Commit okRemote none existingHandle sampleCache).frame.trace =
        [existingHandle.ExecConfig.ID] →
      (Commit okRemote none existingHandle sampleCache).frame.Containers.Container
          existingHandle.ExecConfig.ID =
        some ((newContainer existingHandle.tocontainerBase).RefreshFromHandle
          (Commit okRemote none existingHandle sampleCache).frame.h)) :=
  ⟨rfl, rfl, by decide, by decide,
    ((Commit_cache_update okRemote none existingHandle sampleCache "vm-1"
      (newContainer existingHandle.tocontainerBase) rfl rfl).1 (by decide)).2.2⟩

/-! ### C8: running Commit again -/

theorem reconfigureBlock_skip (env : Remote) (f : Frame)
    (h : f.h.Spec = none ∨ f.h.Runtime = none) : reconfigureBlock env f = .next f := by
  rcases h with h | h
  · simp [reconfigureBlock, h]
  · unfold reconfigureBlock
    split
    · rfl
    · simp [h]

/-- A Commit that returns nil leaves a Handle with a remote reference whose id
is in the cache. -/
theorem Commit_nil_facts (env : Remote) (sess : Option Session) (h : Handle)
    (cache : containerCache) (hnil : (Commit env sess h cache).ret = .nil) :
    (∃ vm, (Commit env sess h cache).frame.h.vm = some vm) ∧
    ∃ c, (Commit env sess h cache).frame.Containers.Container
      (Commit env sess h cache).frame.h.ExecConfig.ID = some c := by
  revert hnil
  cases hvm : h.vm with
  | none =>
    refine Commit_creation_rule env sess h cache
      (fun out => out.ret = .nil → (∃ vm, out.frame.h.vm = some vm) ∧
        ∃ c, out.frame.Containers.Container out.frame.h.ExecConfig.ID = some c) hvm
      ?_ ?_ ?_ ?_
    · intro r f hc hn
      rcases creationBlock_ret_inv env sess _ _ _ hc with ⟨_, _, rfl⟩ | ⟨_, _, _, _, rfl, _⟩ <;>
        cases hn
    · intro f0 r f hc hs hn
      obtain ⟨_, _, hcase⟩ := stopBlock_ret_inv env _ _ _ hs
      rcases hcase with ⟨rfl, _⟩ | ⟨e, rfl, _⟩ | ⟨e, rfl, _⟩ <;> cases hn
    · intro f0 f1 r f hc hs hr hn
      obtain ⟨_, _, _, _, hcase⟩ := reconfigureBlock_ret_inv env _ _ _ hr
      rcases hcase with ⟨rfl, _⟩ | ⟨_, rfl, _⟩ | ⟨_, _, _, rfl, _⟩ <;> cases hn
    · intro f0 f1 f2 hc hs hr _
      obtain ⟨spec, s, ref, acts, rfl, _⟩ := creationBlock_next_inv env sess _ _ hc
      obtain ⟨_, hv1, _, hid1, _, _, _, hC1, _⟩ := stopBlock_next_facts env _ _ hs
      obtain ⟨_, hC2, hb2, _⟩ := reconfigureBlock_next_facts env _ _ hr
      obtain ⟨sh, _, sC, _⟩ := startBlock_frame env f2
      have hv2 : f2.h.vm = f1.h.vm := congrArg containerBase.vm hb2
      have hid2 : f2.h.ExecConfig = f1.h.ExecConfig := congrArg containerBase.ExecConfig hb2
      rw [sh, sC, hC2, hC1, hv2, hv1, hid2, hid1]
      exact ⟨⟨ref, rfl⟩, _, store_lookup _ _ _⟩
  | some vm =>
    refine Commit_existing_rule env sess h cache vm
      (fun out => out.ret = .nil → (∃ vm, out.frame.h.vm = some vm) ∧
        ∃ c, out.frame.Containers.Container out.frame.h.ExecConfig.ID = some c) hvm
      ?_ ?_ ?_
    · intro r f hs hn
      obtain ⟨_, _, hcase⟩ := stopBlock_ret_inv env _ _ _ hs
      rcases hcase with ⟨rfl, _⟩ | ⟨e, rfl, _⟩ | ⟨e, rfl, _⟩ <;> cases hn
    · intro f1 r f hs hr hn
      obtain ⟨_, _, _, _, hcase⟩ := reconfigureBlock_ret_inv env _ _ _ hr
      rcases hcase with ⟨rfl, _⟩ | ⟨_, rfl, _⟩ | ⟨_, _, _, rfl, _⟩ <;> cases hn
    · intro f1 f2 hs hr hn
      obtain ⟨_, hv1, _, _⟩ := stopBlock_next_facts env _ _ hs
      obtain ⟨_, _, hb2, _⟩ := reconfigureBlock_next_facts env _ _ hr
      obtain ⟨sh, _, _, _⟩ := startBlock_frame env f2
      have hv2 : f2.h.vm = f1.h.vm := congrArg containerBase.vm hb2
      rcases runDeferred_cases (startBlock env f2) with ⟨hd, _⟩ | ⟨c0, hd, _⟩
      · rw [hd] at hn
        cases hn
      · rw [hd]
        refine ⟨⟨vm, ?_⟩, _, store_lookup _ _ _⟩
        show (startBlock env f2).frame.h.vm = some vm
        rw [sh, hv2, hv1]
        exact hvm

/-- C8 as stated fails: the first Commit of `existingHandle` stops and
reconfigures `c1` and returns nil; a second Commit of the Handle as the first
left it, with the same cache and remote side, issues the reconfigure again. -/
theorem Commit_rerun_reconfigures_again :
    (Commit okRemote none existingHandle sampleCache).ret = .nil ∧
    reconfigures
      (Commit okRemote none (Commit okRemote none existingHandle sampleCache).frame.h
        (Commit okRemote none existingHandle sampleCache).frame.Containers).frame.trace ≠ [] := by
  decide

/-- C8, amended: when Commit returns nil and leaves the Handle with nothing to
reconfigure (its `Spec` is nil, or its runtime is unknown) and with a cached
runtime that already matches its target power state, a second Commit of that
Handle on the cache the first one left, whatever the remote side answers,
issues no create, power-off, reconfigure or power-on and returns nil. -/
theorem Commit_idempotent_when_settled (env env2 : Remote) (sess sess2 : Option Session)
    (h : Handle) (cache : containerCache)
    (hnil : (Commit env sess h cache).ret = .nil)
    (hspec : (Commit env sess h cache).frame.h.Spec = none ∨
      (Commit env sess h cache).frame.h.Runtime = none)
    (hpow : (Commit env sess h cache).frame.h.targetReached = true) :
    (Commit env2 sess2 (Commit env sess h cache).frame.h
      (Commit env sess h cache).frame.Containers).ret = .nil ∧
    ∀ a ∈ (Commit env2 sess2 (Commit env sess h cache).frame.h
      (Commit env sess h cache).frame.Containers).frame.trace, a.isRemoteMutation = false := by
  obtain ⟨⟨vm, hvm⟩, c, hc⟩ := Commit_nil_facts env sess h cache hnil
  generalize (Commit env sess h cache).frame.h = h1 at *
  generalize (Commit env sess h cache).frame.Containers = cache1 at *
  have p1 : h1.targetState ≠ .StateStopped ∨ runtimeIs h1.Runtime .poweredOff = true := by
    unfold Handle.targetReached at hpow
    cases ht : h1.targetState <;> rw [ht] at hpow <;> simp_all
  have p2 : h1.targetState ≠ .StateRunning ∨ runtimeIs h1.Runtime .poweredOn = true := by
    unfold Handle.targetReached at hpow
    cases ht : h1.targetState <;> rw [ht] at hpow <;> simp_all
  rw [Commit_of_vm_some env2 sess2 h1 cache1 vm hvm, stopBlock_skip env2 _ p1]
  simp only [Flow.andThen]
  rw [reconfigureBlock_skip env2 _ hspec]
  simp only []
  rw [startBlock_skip env2 _ p2]
  rcases runDeferred_cases ⟨.nil, entryFrame h1 cache1⟩ with ⟨_, hn⟩ | ⟨c0, hd, _⟩
  · simp [entryFrame, hc] at hn
  · rw [hd]
    simp [entryFrame, Action.isRemoteMutation]

/-- Witness of C8: stopping the already stopped `c1` twice. -/
theorem Commit_idempotent_when_settled_witness :
    (Commit okRemote none stoppedHandle sampleCache).ret = .nil ∧
    (Commit okRemote none stoppedHandle sampleCache).frame.h.Spec = none ∧
    (Commit okRemote none stoppedHandle sampleCache).frame.h.targetReached = true ∧
    (Commit powerlessRemote none (Commit okRemote none stoppedHandle sampleCache).frame.h
      (Commit okRemote none stoppedHandle sampleCache).frame.Containers).ret = .nil :=
  ⟨by decide, by decide, by decide,
    (Commit_idempotent_when_settled okRemote powerlessRemote none none stoppedHandle sampleCache
      (by decide) (Or.inl (by decide)) (by decide)).1⟩

/-! ### C9: scenario B, stop and reconfigure a running container -/

/-- C9 as stated fails: `c1` is cached powered-on with version tag `1`; the
power-off, the refresh and the reconfigure succeed, and the one reconfigure
issued carries the tag `2` returned by the post-stop refresh, not the tag
that was cached when Commit was called. -/
theorem scenario_B_tag_is_the_refreshed_one :
    sampleCache.Container existingHandle.ExecConfig.ID =
      some (newContainer existingHandle.tocontainerBase) ∧
    (newContainer existingHandle.tocontainerBase).Runtime = some { PowerState := .poweredOn } ∧
    (newContainer existingHandle.tocontainerBase).Config = some { ChangeVersion := "1" } ∧
    existingHandle.vm = (newContainer existingHandle.tocontainerBase).vm ∧
    existingHandle.targetState = .StateStopped ∧
    (Commit okRemote none existingHandle sampleCache).ret = .nil ∧
    (reconfigures (Commit okRemote none existingHandle sampleCache).frame.trace).map
      (fun x => x.2.ChangeVersion) = ["2"] := by
  decide

/-- C9, amended: with `C` cached under the Handle's id, a Handle on `C.ref`
with spec `S2` and target Stopped whose own cached runtime is not powered-off
(it is that of the powered-on `C`, or unknown), and the power-off, the
refresh (reporting a known runtime and a config `cfg`) and the reconfigure all
succeeding, Commit returns nil, publishes exactly one Stopped event and no
Started event, and issues exactly one reconfigure, whose version tag is the
one of `cfg`, the config returned by the targeted refresh after the
power-off. -/
theorem Commit_scenario_B (env : Remote) (sess : Option Session) (h : Handle)
    (cache : containerCache) (C : Container) (S2 : ConfigSpec) (vm : ManagedObjectReference)
    (base : containerBase) (rt : RuntimeInfo) (cfg : ConfigInfo)
    (hC : cache.Container h.ExecConfig.ID = some C)
    (hvm : h.vm = some vm) (hspec : h.Spec = some S2) (ht : h.targetState = .StateStopped)
    (hoff : runtimeIs h.Runtime .poweredOff = false)
    (hstop : env.stop = none) (hupd : env.updates = .ok base)
    (hrt : base.Runtime = some rt) (hcfg : base.Config = some cfg)
    (hrec : ∀ v s, env.Reconfigure v s = none) :
    (Commit env sess h cache).ret = .nil ∧
    published (Commit env sess h cache).frame.trace .ContainerStopped = [h.ExecConfig.ID] ∧
    published (Commit env sess h cache).frame.trace .ContainerStarted = [] ∧
    reconfigures (Commit env sess h cache).frame.trace =
      [(vm, outgoingSpec S2 cfg h.Migrated)] ∧
    (outgoingSpec S2 cfg h.Migrated).ChangeVersion = cfg.ChangeVersion := by
  have hs : stopBlock env (entryFrame h cache) = .next
      { entryFrame h cache with
        h := { h with Runtime := base.Runtime, Config := base.Config }
        trace := [.stop h.ExecConfig.ID,
          .publishContainerEvent h.ExecConfig.ID .ContainerStopped,
          .updates h.ExecConfig.ID] } := by
    simp [stopBlock, entryFrame, ht, hoff, hC, hstop, hupd]
  rw [Commit_of_vm_some env sess h cache vm hvm, hs]
  simp only [Flow.andThen]
  rcases reconfigureBlock_cases env
      { entryFrame h cache with
        h := { h with Runtime := base.Runtime, Config := base.Config }
        trace := [.stop h.ExecConfig.ID,
          .publishContainerEvent h.ExecConfig.ID .ContainerStopped,
          .updates h.ExecConfig.ID] } with
    hr | ⟨sp, r, hr⟩ | ⟨sp, r, c, hr⟩ | ⟨sp, r, c, v, e2, hr⟩ | ⟨sp, r, c, v, hr⟩
  · rcases hr.2 with h1 | h1
    · rw [hspec] at h1; cases h1
    · rw [hrt] at h1; cases h1
  · have := hr.2.2.2
    rw [hcfg] at this
    cases this
  · have := hr.2.2.2.2
    rw [hvm] at this
    cases this
  · have := hr.2.2.2.2.2
    rw [hrec] at this
    cases this
  · obtain ⟨hr, e1, _, e3, e4, _⟩ := hr
    rw [hr]
    simp only [hspec, hcfg, hvm, Option.some.injEq] at e1 e3 e4
    subst e1 e3 e4
    dsimp only
    rw [startBlock_skip env _ (Or.inl (by simp [ht]))]
    simp only [runDeferred, entryFrame, hC]
    refine ⟨trivial, ?_, ?_, ?_, outgoingSpec_ChangeVersion _ _ _⟩
    · split <;> simp [published]
    · split <;> simp [published]
    · split <;> simp [reconfigures]

/-- Witness of C9: `existingHandle` on the cached, powered-on `c1`. -/
theorem Commit_scenario_B_witness :
    sampleCache.Container existingHandle.ExecConfig.ID =
      some (newContainer existingHandle.tocontainerBase) ∧
    runtimeIs existingHandle.Runtime .poweredOff = false ∧
    okRemote.updates = .ok refreshedBase ∧
    published (Commit okRemote none existingHandle sampleCache).frame.trace .ContainerStopped
      = ["c1"] ∧
    reconfigures (Commit okRemote none existingHandle sampleCache).frame.trace =
      [("vm-1", outgoingSpec sampleSpec { ChangeVersion := "2" } false)] :=
  ⟨rfl, rfl, rfl,
    (Commit_scenario_B okRemote none existingHandle sampleCache
      (newContainer existingHandle.tocontainerBase) sampleSpec "vm-1" refreshedBase
      { PowerState := .poweredOff } { ChangeVersion := "2" }
      rfl rfl rfl rfl rfl rfl rfl rfl rfl (fun _ _ => rfl)).2.1,
    (Commit_scenario_B okRemote none existingHandle sampleCache
      (newContainer existingHandle.tocontainerBase) sampleSpec "vm-1" refreshedBase
      { PowerState := .poweredOff } { ChangeVersion := "2" }
      rfl rfl rfl rfl rfl rfl rfl rfl rfl (fun _ _ => rfl)).2.2.2.1⟩

/-! ### C10: scenario A, create and start -/

theorem publishedEvents_append (a b : List Action) :
    publishedEvents (a ++ b) = publishedEvents a ++ publishedEvents b := by
  simp [publishedEvents, List.filterMap_append]

/-- The placement and create task publish nothing. -/
theorem createTask_publishedEvents (env : Remote) (s : Session) (spec : ConfigSpec)
    (r : Except GoError ManagedObjectReference) (acts : List Action)
    (h : createTask env s spec = (r, acts)) : publishedEvents acts = [] := by
  rcases createTask_acts env s spec r acts h with ⟨rfl, _⟩ | ⟨rfl, _⟩ | ⟨rfl, _⟩ <;> rfl

/-- C10: from an empty cache, Commit of a Handle with spec `S`, target Running
and no remote reference (nor a runtime reporting powered-on), with a session,
a create task that succeeds and a power-on that succeeds, returns nil, leaves
exactly one Container in the cache, under the Handle's id, and publishes
exactly the events Created then Started for that id, hence no Stopped event. -/
theorem Commit_scenario_A (env : Remote) (s : Session) (h : Handle) (S : ConfigSpec)
    (ref : ManagedObjectReference)
    (hvm : h.vm = none) (hspec : h.Spec = some S) (ht : h.targetState = .StateRunning)
    (hrt : runtimeIs h.Runtime .poweredOn = false)
    (hcreate : (createTask env s S).1 = .ok ref) (hstart : env.start = none) :
    (Commit env (some s) h []).ret = .nil ∧
    (Commit env (some s) h []).frame.Containers =
      [(h.ExecConfig.ID, newContainer { h.tocontainerBase with vm := some ref })] ∧
    publishedEvents (Commit env (some s) h []).frame.trace =
      [(h.ExecConfig.ID, .ContainerCreated), (h.ExecConfig.ID, .ContainerStarted)] ∧
    published (Commit env (some s) h []).frame.trace .ContainerStopped = [] := by
  rcases hct : createTask env s S with ⟨r, acts⟩
  rw [hct] at hcreate
  simp only at hcreate
  subst hcreate
  have hq := createTask_publishedEvents env s S _ _ hct
  have hp := (createTask_quiet env s S .ContainerStopped).1
  rw [hct] at hp
  simp only at hp
  rw [Commit_of_vm_none env (some s) h [] hvm,
    creationBlock_ok env s (entryFrame h []) S ref acts hspec rfl hct]
  simp only [Flow.andThen]
  rw [stopBlock_skip env _ (Or.inl (by simp [entryFrame, ht]))]
  simp only []
  rw [reconfigureBlock_of_spec_none env _ rfl]
  simp only []
  rcases startBlock_cases env
      { h := { (entryFrame h []).h with vm := some ref, Spec := none }
        c := some (newContainer { (entryFrame h []).h.tocontainerBase with vm := some ref })
        Containers := (entryFrame h []).Containers.Put
          (newContainer { (entryFrame h []).h.tocontainerBase with vm := some ref })
        trace := (entryFrame h []).trace ++ acts ++
          [.Put (entryFrame h []).h.ExecConfig.ID,
           .publishContainerEvent (entryFrame h []).h.ExecConfig.ID .ContainerCreated] } with
    h1 | h1 | ⟨err, h1⟩ | h1
  · rcases h1.2 with h2 | h2
    · exact absurd ht h2
    · have h3 : runtimeIs h.Runtime .poweredOn = true := h2
      rw [hrt] at h3
      cases h3
  · have := h1.2.2.2
    cases this
  · have := h1.2.1
    rw [hstart] at this
    cases this
  · rw [h1.1]
    refine ⟨rfl, ?_, ?_, ?_⟩
    · simp [entryFrame, containerCache.Put, containerCache.store, newContainer]
    · simp only [entryFrame, List.nil_append, publishedEvents_append, hq]
      rfl
    · simp only [entryFrame, List.nil_append, published_append, hp]
      rfl

/-- Witness of C10: creating and starting `c1` from an empty cache. -/
theorem Commit_scenario_A_witness :
    newHandle.vm = none ∧ newHandle.Spec = some sampleSpec ∧
    newHandle.targetState = .StateRunning ∧
    (createTask okRemote sampleSession sampleSpec).1 = .ok "vm-1" ∧
    okRemote.start = none ∧
    (Commit okRemote (some sampleSession) newHandle []).ret = .nil ∧
    publishedEvents (Commit okRemote (some sampleSession) newHandle []).frame.trace =
      [("c1", .ContainerCreated), ("c1", .ContainerStarted)] :=
  ⟨rfl, rfl, rfl, rfl, rfl,
    (Commit_scenario_A okRemote sampleSession newHandle sampleSpec "vm-1"
      rfl rfl rfl rfl rfl rfl).1,
    (Commit_scenario_A okRemote sampleSession newHandle sampleSpec "vm-1"
      rfl rfl rfl rfl rfl rfl).2.2.1⟩

/-! ### C11: no reconfigure with an unknown runtime -/

/-- C11 as stated fails: `unknownHandle` has a remote reference, a spec, no
runtime and no target; on a cache without its id no step has a Container to
update and Commit panics instead of returning nil. -/
theorem Commit_unknown_runtime_uncached :
    unknownHandle.vm = some "vm-1" ∧ unknownHandle.Spec = some sampleSpec ∧
    unknownHandle.Runtime = none ∧ unknownHandle.targetState = .StateUnset ∧
    (Commit okRemote none unknownHandle []).ret = .panic ∧
    (Commit okRemote none unknownHandle []).ret ≠ .nil := by
  decide

/-- C11, amended: on a Handle with a remote reference (with or without a spec)
whose cached runtime is unknown when the reconfigure step is reached, Commit
issues no reconfigure and the skip produces no error.  Unknown on entry with no
target: no remote call at all is made and no error is returned; Commit returns
nil when the cache holds the Handle's id, and panics when it does not.  Unknown
on entry with target Running: the only error Commit can return is that of the
power-on it issued.  Still unknown after the refresh that follows a successful
power-off: no error is returned; Commit returns nil when the cache holds the
Handle's id, and panics when it does not. -/
theorem Commit_unknown_runtime_skips_reconfigure (env : Remote) (sess : Option Session)
    (h : Handle) (cache : containerCache) (vm : ManagedObjectReference)
    (hvm : h.vm = some vm) :
    (h.Runtime = none → h.targetState = .StateUnset →
      reconfigures (Commit env sess h cache).frame.trace = [] ∧
      (∀ a ∈ (Commit env sess h cache).frame.trace, a.isRemoteCall = false) ∧
      (∀ e, (Commit env sess h cache).ret ≠ .error e) ∧
      (∀ c, cache.Container h.ExecConfig.ID = some c →
        (Commit env sess h cache).ret = .nil) ∧
      (cache.Container h.ExecConfig.ID = none → (Commit env sess h cache).ret = .panic)) ∧
    (h.Runtime = none → h.targetState = .StateRunning →
      reconfigures (Commit env sess h cache).frame.trace = [] ∧
      (∀ e, (Commit env sess h cache).ret = .error e →
        env.start = some e ∧ Action.start h.ExecConfig.ID ∈ (Commit env sess h cache).frame.trace)) ∧
    (h.targetState = .StateStopped → runtimeIs h.Runtime .poweredOff = false →
      ∀ base, env.stop = none → env.updates = .ok base → base.Runtime = none →
      reconfigures (Commit env sess h cache).frame.trace = [] ∧
      (∀ e, (Commit env sess h cache).ret ≠ .error e) ∧
      (∀ c, cache.Container h.ExecConfig.ID = some c →
        (Commit env sess h cache).ret = .nil) ∧
      (cache.Container h.ExecConfig.ID = none → (Commit env sess h cache).ret = .panic)) := by
  refine ⟨?_, ?_, ?_⟩
  · intro hrt ht
    rw [Commit_of_vm_some env sess h cache vm hvm,
      stopBlock_skip env _ (Or.inl (by simp [entryFrame, ht]))]
    simp only [Flow.andThen]
    rw [reconfigureBlock_skip env _ (Or.inr hrt)]
    simp only []
    rw [startBlock_skip env _ (Or.inl (by simp [entryFrame, ht]))]
    rcases runDeferred_cases ⟨.nil, entryFrame h cache⟩ with ⟨hd, hn⟩ | ⟨c0, hd, hc0⟩ <;> rw [hd]
    · refine ⟨rfl, by simp [entryFrame], by simp, ?_, fun _ => rfl⟩
      intro c hc
      simp [entryFrame, hc] at hn
    · refine ⟨rfl, by simp [entryFrame, Action.isRemoteCall], by simp, fun _ _ => rfl, ?_⟩
      intro hcn
      simp [entryFrame, hcn] at hc0
  · intro hrt ht
    rw [Commit_of_vm_some env sess h cache vm hvm,
      stopBlock_skip env _ (Or.inl (by simp [entryFrame, ht]))]
    simp only [Flow.andThen]
    rw [reconfigureBlock_skip env _ (Or.inr hrt)]
    simp only []
    rcases startBlock_cases env (entryFrame h cache) with h1 | h1 | ⟨err, h1⟩ | h1
    · rcases h1.2 with h2 | h2
      · exact absurd ht h2
      · simp [entryFrame, hrt, runtimeIs] at h2
    · rw [h1.1]
      rcases runDeferred_cases ⟨.panic, entryFrame h cache⟩ with ⟨hd, _⟩ | ⟨c0, hd, _⟩ <;>
        rw [hd] <;> simp [entryFrame, reconfigures]
    · rw [h1.1]
      rcases runDeferred_cases
          ⟨.error err, { entryFrame h cache with
            trace := (entryFrame h cache).trace ++ [.start (entryFrame h cache).h.ExecConfig.ID] }⟩
        with ⟨hd, _⟩ | ⟨c0, hd, _⟩ <;>
        rw [hd] <;> simp [entryFrame, reconfigures, h1.2.1]
    · rw [h1.1]
      rcases runDeferred_cases
          ⟨.nil, { entryFrame h cache with
            trace := (entryFrame h cache).trace ++
              [.start (entryFrame h cache).h.ExecConfig.ID,
               .publishContainerEvent (entryFrame h cache).h.ExecConfig.ID .ContainerStarted] }⟩
        with ⟨hd, _⟩ | ⟨c0, hd, _⟩ <;>
        rw [hd] <;> simp [entryFrame, reconfigures]
  · intro ht hoff base hstop hupd hb
    rw [Commit_of_vm_some env sess h cache vm hvm]
    cases hc : cache.Container h.ExecConfig.ID with
    | none =>
      have hs : stopBlock env (entryFrame h cache) = .ret .panic (entryFrame h cache) := by
        simp [stopBlock, entryFrame, ht, hoff, hc]
      rw [hs]
      simp [Flow.andThen, entryFrame, reconfigures]
    | some c =>
      have hs : stopBlock env (entryFrame h cache) = .next
          { entryFrame h cache with
            h := { h with Runtime := base.Runtime, Config := base.Config }
            trace := [.stop h.ExecConfig.ID,
              .publishContainerEvent h.ExecConfig.ID .ContainerStopped,
              .updates h.ExecConfig.ID] } := by
        simp [stopBlock, entryFrame, ht, hoff, hc, hstop, hupd]
      rw [hs]
      simp only [Flow.andThen]
      rw [reconfigureBlock_skip env _ (Or.inr hb)]
      simp only []
      rw [startBlock_skip env _ (Or.inl (by simp [ht]))]
      simp [runDeferred, entryFrame, hc, reconfigures]

/-- Witness of C11: `unknownHandle` carries a spec but no runtime; nothing is
asked of the remote side and Commit returns nil. -/
theorem Commit_unknown_runtime_skips_reconfigure_witness :
    unknownHandle.vm = some "vm-1" ∧ unknownHandle.Spec = some sampleSpec ∧
    unknownHandle.Runtime = none ∧ unknownHandle.targetState = .StateUnset ∧
    reconfigures (Commit conflictRemote none unknownHandle sampleCache).frame.trace = [] ∧
    (Commit conflictRemote none unknownHandle sampleCache).ret = .nil :=
  ⟨rfl, rfl, rfl, rfl,
    ((Commit_unknown_runtime_skips_reconfigure conflictRemote none unknownHandle sampleCache
      "vm-1" rfl).1 rfl rfl).1,
    ((Commit_unknown_runtime_skips_reconfigure conflictRemote none unknownHandle sampleCache
      "vm-1" rfl).1 rfl rfl).2.2.2.1 _ rfl⟩

/-! ### C12: what becomes of the pending spec -/

/-- The reconfigure block leaves its outgoing spec in the Handle. -/
theorem reconfigureBlock_issued_spec (env : Remote) (f : Frame) (vm : ManagedObjectReference)
    (s : ConfigSpec) (h0 : reconfigures f.trace = [])
    (hi : (vm, s) ∈ reconfigures (reconfigureBlock env f).frame.trace) :
    (reconfigureBlock env f).frame.h.Spec = some s := by
  rcases reconfigureBlock_cases env f with
    h | ⟨sp, rt, h⟩ | ⟨sp, rt, cfg, h⟩ | ⟨sp, rt, cfg, v, e2, h⟩ | ⟨sp, rt, cfg, v, h⟩ <;>
    rw [h.1] at hi ⊢ <;> simp only [Flow.frame, reconfigures_append, h0] at hi ⊢
  · exact absurd hi (List.not_mem_nil _)
  · exact absurd hi (List.not_mem_nil _)
  · exact absurd hi (List.not_mem_nil _)
  · have hi2 : (vm, s) = (v, outgoingSpec sp cfg f.h.Migrated) := by
      simpa [reconfigures] using hi
    cases hi2
    rfl
  · have hi2 : (vm, s) = (v, outgoingSpec sp cfg f.h.Migrated) := by
      split at hi <;> simpa [reconfigures] using hi
    cases hi2
    rfl

/-- C12 as stated fails: the Commit of `existingHandle` acts on its spec by a
reconfigure that succeeds and returns nil, and the Handle still has a spec. -/
theorem Commit_reconfigure_keeps_spec :
    (Commit okRemote none existingHandle sampleCache).ret = .nil ∧
    reconfigures (Commit okRemote none existingHandle sampleCache).frame.trace =
      [("vm-1", outgoingSpec sampleSpec { ChangeVersion := "2" } false)] ∧
    okRemote.Reconfigure "vm-1" (outgoingSpec sampleSpec { ChangeVersion := "2" } false) = none ∧
    (Commit okRemote none existingHandle sampleCache).frame.h.Spec ≠ none := by
  decide

/-- C12, amended: a Commit that returns nil after creating the remote resource
from the spec leaves the Handle's `Spec` nil; a Commit that issued a
reconfigure leaves in the Handle the spec it sent (the pending spec with the
version tag written in, and ExtraConfig removed when migrated). -/
theorem Commit_spec_after_acting (env : Remote) (sess : Option Session) (h : Handle)
    (cache : containerCache) :
    (h.vm = none → (Commit env sess h cache).ret = .nil →
      (Commit env sess h cache).frame.h.Spec = none) ∧
    (∀ vm s, (vm, s) ∈ reconfigures (Commit env sess h cache).frame.trace →
      (Commit env sess h cache).frame.h.Spec = some s) := by
  constructor
  · intro hvm
    refine Commit_creation_rule env sess h cache
      (fun out => out.ret = .nil → out.frame.h.Spec = none) hvm ?_ ?_ ?_ ?_
    · intro r f hc hn
      rcases creationBlock_ret_inv env sess _ _ _ hc with ⟨_, _, rfl⟩ | ⟨_, _, _, _, rfl, _⟩ <;>
        cases hn
    · intro f0 r f hc hs hn
      obtain ⟨_, _, hcase⟩ := stopBlock_ret_inv env _ _ _ hs
      rcases hcase with ⟨rfl, _⟩ | ⟨e, rfl, _⟩ | ⟨e, rfl, _⟩ <;> cases hn
    · intro f0 f1 r f hc hs hr hn
      obtain ⟨_, _, _, _, hcase⟩ := reconfigureBlock_ret_inv env _ _ _ hr
      rcases hcase with ⟨rfl, _⟩ | ⟨_, rfl, _⟩ | ⟨_, _, _, rfl, _⟩ <;> cases hn
    · intro f0 f1 f2 hc hs hr _
      obtain ⟨spec, s, ref, acts, rfl, _⟩ := creationBlock_next_inv env sess _ _ hc
      obtain ⟨hsp, _⟩ := stopBlock_next_facts env _ _ hs
      have h1 : f1.h.Spec = none := hsp
      rw [reconfigureBlock_of_spec_none env f1 h1] at hr
      cases hr
      rw [startBlock_h]
      exact h1
  · intro vm s hi
    cases hvm : h.vm with
    | none =>
      rw [Commit_creation_reconfigures env sess h cache hvm] at hi
      exact absurd hi (List.not_mem_nil _)
    | some vm0 =>
      revert hi
      refine Commit_existing_rule env sess h cache vm0
        (fun out => (vm, s) ∈ reconfigures out.frame.trace → out.frame.h.Spec = some s)
        hvm ?_ ?_ ?_
      · intro r f hs hi
        have h0 := stopBlock_reconfigures env (entryFrame h cache)
        rw [hs] at h0
        change reconfigures f.trace = [] at h0
        change (vm, s) ∈ reconfigures f.trace at hi
        rw [h0] at hi
        exact absurd hi (List.not_mem_nil _)
      · intro f1 r f hs hr hi
        have h1 := stopBlock_reconfigures env (entryFrame h cache)
        rw [hs] at h1
        change reconfigures f1.trace = [] at h1
        have hi2 : (vm, s) ∈ reconfigures (reconfigureBlock env f1).frame.trace := by
          rw [hr]; exact hi
        have := reconfigureBlock_issued_spec env f1 vm s h1 hi2
        rw [hr] at this
        exact this
      · intro f1 f2 hs hr hi
        have h1 := stopBlock_reconfigures env (entryFrame h cache)
        rw [hs] at h1
        change reconfigures f1.trace = [] at h1
        rw [runDeferred_reconfigures, startBlock_reconfigures] at hi
        have hi2 : (vm, s) ∈ reconfigures (reconfigureBlock env f1).frame.trace := by
          rw [hr]; exact hi
        have := reconfigureBlock_issued_spec env f1 vm s h1 hi2
        rw [hr] at this
        rw [runDeferred_h, startBlock_h]
        exact this

/-- Witness of C12: after creating and starting `c1` the spec is gone. -/
theorem Commit_spec_after_acting_witness :
    newHandle.vm = none ∧
    (Commit okRemote (some sampleSession) newHandle []).ret = .nil ∧
    (Commit okRemote (some sampleSession) newHandle []).frame.h.Spec = none :=
  ⟨rfl, by decide,
    (Commit_spec_after_acting okRemote (some sampleSession) newHandle []).1 rfl (by decide)⟩

/-! ### C13: the order of the remote operations -/

theorem phases_append (a b : List Action) : phases (a ++ b) = phases a ++ phases b := by
  simp [phases, List.filterMap_append]

theorem creationBlock_phases (env : Remote) (sess : Option Session) (f : Frame) :
    ∃ p, phases (creationBlock env sess f).frame.trace = phases f.trace ++ p ∧
      (p = [] ∨ p = [0]) := by
  rcases creationBlock_cases env sess f with
    h | ⟨spec, h⟩ | ⟨spec, s, c, h⟩ | ⟨spec, s, err, acts, h⟩ | ⟨spec, s, ref, acts, h⟩
  · exact ⟨[], by simp [h.1, Flow.frame], Or.inl rfl⟩
  · exact ⟨[], by simp [h.1, Flow.frame], Or.inl rfl⟩
  · exact ⟨[], by simp [h.1, Flow.frame], Or.inl rfl⟩
  · rw [h.1]
    rcases createTask_acts env s spec _ _ h.2.2.2.2 with ⟨rfl, _⟩ | ⟨rfl, _⟩ | ⟨rfl, _⟩
    · exact ⟨[0], by simp [Flow.frame, phases_append, phases, Action.phase], Or.inr rfl⟩
    · exact ⟨[], by simp [Flow.frame, phases_append, phases, Action.phase], Or.inl rfl⟩
    · exact ⟨[0], by simp [Flow.frame, phases_append, phases, Action.phase], Or.inr rfl⟩
  · rw [h.1]
    rcases createTask_acts env s spec _ _ h.2.2.2.2 with ⟨rfl, _⟩ | ⟨rfl, _⟩ | ⟨rfl, _⟩
    · exact ⟨[0], by simp [Flow.frame, phases_append, phases, Action.phase], Or.inr rfl⟩
    · exact ⟨[], by simp [Flow.frame, phases_append, phases, Action.phase], Or.inl rfl⟩
    · exact ⟨[0], by simp [Flow.frame, phases_append, phases, Action.phase], Or.inr rfl⟩

theorem stopBlock_phases (env : Remote) (f : Frame) :
    ∃ p, phases (stopBlock env f).frame.trace = phases f.trace ++ p ∧
      (p = [] ∨ (p = [1] ∧ f.h.targetState = .StateStopped)) := by
  rcases stopBlock_cases env f with h | h | ⟨err, h⟩ | ⟨err, h⟩ | ⟨base, h⟩ <;> rw [h.1]
  · exact ⟨[], by simp [Flow.frame], Or.inl rfl⟩
  · exact ⟨[], by simp [Flow.frame], Or.inl rfl⟩
  · exact ⟨[1], by simp [Flow.frame, phases_append, phases, Action.phase], Or.inr ⟨rfl, h.2.2.1⟩⟩
  · exact ⟨[1], by simp [Flow.frame, phases_append, phases, Action.phase],
      Or.inr ⟨rfl, h.2.2.2.1⟩⟩
  · exact ⟨[1], by simp [Flow.frame, phases_append, phases, Action.phase],
      Or.inr ⟨rfl, h.2.2.2.1⟩⟩

theorem reconfigureBlock_phases (env : Remote) (f : Frame) :
    ∃ p, phases (reconfigureBlock env f).frame.trace = phases f.trace ++ p ∧
      (p = [] ∨ p = [2]) := by
  rcases reconfigureBlock_cases env f with
    h | ⟨sp, rt, h⟩ | ⟨sp, rt, cfg, h⟩ | ⟨sp, rt, cfg, v, e2, h⟩ | ⟨sp, rt, cfg, v, h⟩ <;>
    rw [h.1]
  · exact ⟨[], by simp [Flow.frame], Or.inl rfl⟩
  · exact ⟨[], by simp [Flow.frame], Or.inl rfl⟩
  · exact ⟨[], by simp [Flow.frame], Or.inl rfl⟩
  · exact ⟨[2], by simp [Flow.frame, phases_append, phases, Action.phase], Or.inr rfl⟩
  · refine ⟨[2], ?_, Or.inr rfl⟩
    simp only [Flow.frame, phases_append]
    split <;> simp [phases, Action.phase]

theorem startBlock_phases (env : Remote) (f : Frame) :
    ∃ p, phases (startBlock env f).frame.trace = phases f.trace ++ p ∧
      (p = [] ∨ (p = [3] ∧ f.h.targetState = .StateRunning)) := by
  rcases startBlock_cases env f with h | h | ⟨err, h⟩ | h <;> rw [h.1]
  · exact ⟨[], by simp, Or.inl rfl⟩
  · exact ⟨[], by simp, Or.inl rfl⟩
  · exact ⟨[3], by simp [phases_append, phases, Action.phase], Or.inr ⟨rfl, h.2.2.1⟩⟩
  · exact ⟨[3], by simp [phases_append, phases, Action.phase], Or.inr ⟨rfl, h.2.2.1⟩⟩

theorem runDeferred_phases (o : Outcome) :
    phases (runDeferred o).frame.trace = phases o.frame.trace := by
  rcases runDeferred_cases o with ⟨hd, _⟩ | ⟨c, hd, _⟩ <;> rw [hd] <;>
    simp [phases_append, phases, Action.phase]

theorem orderedPhases_sound (h : Handle) (ps : List Nat) (hp : orderedPhases h ps) :
    ps.Pairwise (· < ·) ∧ ¬ (1 ∈ ps ∧ 3 ∈ ps) := by
  obtain ⟨a, b, c, d, rfl, ha, hb, hc, hd⟩ := hp
  rcases ha with rfl | rfl <;> rcases hb with rfl | ⟨rfl, hb⟩ <;>
    rcases hc with rfl | rfl <;> rcases hd with rfl | ⟨rfl, hd⟩ <;>
    first
      | (rw [hb] at hd; cases hd)
      | decide

theorem Commit_orderedPhases (env : Remote) (sess : Option Session) (h : Handle)
    (cache : containerCache) :
    orderedPhases h (phases (Commit env sess h cache).frame.trace) := by
  have e0 : phases (entryFrame h cache).trace = [] := rfl
  cases hvm : h.vm with
  | none =>
    obtain ⟨a, ha, hao⟩ := creationBlock_phases env sess (entryFrame h cache)
    rw [e0, List.nil_append] at ha
    refine Commit_creation_rule env sess h cache
      (fun out => orderedPhases h (phases out.frame.trace)) hvm ?_ ?_ ?_ ?_
    · intro r f hc
      rw [hc] at ha
      exact ⟨a, [], [], [], by simpa [Flow.frame] using ha, hao, Or.inl rfl, Or.inl rfl,
        Or.inl rfl⟩
    · intro f0 r f hc hs
      rw [hc] at ha
      obtain ⟨b, hb, hbo⟩ := stopBlock_phases env f0
      rw [hs] at hb
      have ht0 : f0.h.targetState = h.targetState := by
        obtain ⟨_, _, _, _, rfl, _⟩ := creationBlock_next_inv env sess _ _ hc
        rfl
      rw [ht0] at hbo
      simp only [Flow.frame] at ha hb
      exact ⟨a, b, [], [], by simp [hb, ha], hao, hbo, Or.inl rfl, Or.inl rfl⟩
    · intro f0 f1 r f hc hs hr
      rw [hc] at ha
      obtain ⟨b, hb, hbo⟩ := stopBlock_phases env f0
      rw [hs] at hb
      obtain ⟨c, hcc, hco⟩ := reconfigureBlock_phases env f1
      rw [hr] at hcc
      have ht0 : f0.h.targetState = h.targetState := by
        obtain ⟨_, _, _, _, rfl, _⟩ := creationBlock_next_inv env sess _ _ hc
        rfl
      rw [ht0] at hbo
      simp only [Flow.frame] at ha hb hcc
      exact ⟨a, b, c, [], by simp [hcc, hb, ha], hao, hbo, hco, Or.inl rfl⟩
    · intro f0 f1 f2 hc hs hr
      rw [hc] at ha
      obtain ⟨b, hb, hbo⟩ := stopBlock_phases env f0
      rw [hs] at hb
      obtain ⟨c, hcc, hco⟩ := reconfigureBlock_phases env f1
      rw [hr] at hcc
      obtain ⟨d, hd, hdo⟩ := startBlock_phases env f2
      have ht0 : f0.h.targetState = h.targetState := by
        obtain ⟨_, _, _, _, rfl, _⟩ := creationBlock_next_inv env sess _ _ hc
        rfl
      have ht1 : f1.h.targetState = f0.h.targetState :=
        (stopBlock_next_facts env _ _ hs).2.2.2.2.1
      have ht2 : f2.h.targetState = f1.h.targetState :=
        (reconfigureBlock_next_facts env _ _ hr).2.2.2.1
      rw [ht0] at hbo
      rw [ht2, ht1, ht0] at hdo
      simp only [Flow.frame] at ha hb hcc
      exact ⟨a, b, c, d, by simp [hd, hcc, hb, ha], hao, hbo, hco, hdo⟩
  | some vm =>
    refine Commit_existing_rule env sess h cache vm
      (fun out => orderedPhases h (phases out.frame.trace)) hvm ?_ ?_ ?_
    · intro r f hs
      obtain ⟨b, hb, hbo⟩ := stopBlock_phases env (entryFrame h cache)
      rw [hs, e0] at hb
      simp only [Flow.frame] at hb
      exact ⟨[], b, [], [], by simp [hb], Or.inl rfl, hbo, Or.inl rfl, Or.inl rfl⟩
    · intro f1 r f hs hr
      obtain ⟨b, hb, hbo⟩ := stopBlock_phases env (entryFrame h cache)
      rw [hs, e0] at hb
      obtain ⟨c, hcc, hco⟩ := reconfigureBlock_phases env f1
      rw [hr] at hcc
      simp only [Flow.frame] at hb hcc
      exact ⟨[], b, c, [], by simp [hcc, hb], Or.inl rfl, hbo, hco, Or.inl rfl⟩
    · intro f1 f2 hs hr
      obtain ⟨b, hb, hbo⟩ := stopBlock_phases env (entryFrame h cache)
      rw [hs, e0] at hb
      obtain ⟨c, hcc, hco⟩ := reconfigureBlock_phases env f1
      rw [hr] at hcc
      obtain ⟨d, hd, hdo⟩ := startBlock_phases env f2
      have ht1 : f1.h.targetState = h.targetState :=
        (stopBlock_next_facts env _ _ hs).2.2.2.2.1
      have ht2 : f2.h.targetState = f1.h.targetState :=
        (reconfigureBlock_next_facts env _ _ hr).2.2.2.1
      rw [ht2, ht1] at hdo
      simp only [Flow.frame] at hb hcc
      rw [runDeferred_phases]
      exact ⟨[], b, c, d, by simp [hd, hcc, hb], Or.inl rfl, hbo, hco, hdo⟩

theorem start_mem_phases (tr : List Action) (id : String) (h : Action.start id ∈ tr) :
    3 ∈ phases tr :=
  List.mem_filterMap.mpr ⟨_, h, rfl⟩

theorem stop_mem_phases (tr : List Action) (id : String) (h : Action.stop id ∈ tr) :
    1 ∈ phases tr :=
  List.mem_filterMap.mpr ⟨_, h, rfl⟩

/-- C13: in the effects of any Commit the ranks of the remote mutations
(create 0, power-off 1, reconfigure 2, power-on 3) are strictly increasing, so
each of the four is issued at most once and only in that order; and no Commit
issues both a power-off and a power-on. -/
theorem Commit_operations_ordered (env : Remote) (sess : Option Session) (h : Handle)
    (cache : containerCache) :
    (phases (Commit env sess h cache).frame.trace).Pairwise (· < ·) ∧
    ∀ id1 id2, ¬ (Action.stop id1 ∈ (Commit env sess h cache).frame.trace ∧
      Action.start id2 ∈ (Commit env sess h cache).frame.trace) := by
  obtain ⟨h1, h2⟩ := orderedPhases_sound h _ (Commit_orderedPhases env sess h cache)
  exact ⟨h1, fun id1 id2 hh =>
    h2 ⟨stop_mem_phases _ id1 hh.1, start_mem_phases _ id2 hh.2⟩⟩

/-! ### C14: the cache update and the power-on -/

/-- C14 as stated fails: starting the stopped, cached `c1`, the power-on is
issued and Started is published before the cache entry is updated from the
Handle. -/
theorem Commit_refresh_runs_after_start :
    startHandle.vm = some "vm-1" ∧ startHandle.targetState = .StateRunning ∧
    runtimeIs startHandle.Runtime .poweredOn = false ∧
    (Commit okRemote none startHandle sampleCache).frame.trace =
      [.start "c1", .publishContainerEvent "c1" .ContainerStarted, .RefreshFromHandle "c1"] := by
  decide

/-- On an existing container with target Running, what the stop and
reconfigure blocks leave behind when the reconfigure does not end the
Commit. -/
theorem running_before_start (env : Remote) (h : Handle) (cache : containerCache)
    (f1 f2 : Frame) (ht : h.targetState = .StateRunning)
    (hs : stopBlock env (entryFrame h cache) = .next f1)
    (hr : reconfigureBlock env f1 = .next f2) :
    f2.c = cache.Container h.ExecConfig.ID ∧ f2.Containers = cache ∧
    f2.h.tocontainerBase = h.tocontainerBase ∧ f2.h.targetState = h.targetState ∧
    (∀ a ∈ f2.trace, (∃ v s, a = .Reconfigure v s) ∨ (∃ id, a = .startGuestProgram id)) ∧
    (∀ v s, (v, s) ∈ reconfigures f2.trace → f2.h.Spec = some s) ∧
    (reconfigures f2.trace = [] → f2.h = h) := by
  rw [stopBlock_skip env _ (Or.inl (by simp [entryFrame, ht]))] at hs
  cases hs
  rcases reconfigureBlock_next_inv env _ _ hr with ⟨rfl, _⟩ | ⟨sp, rt, cfg, v, rfl, _⟩
  · refine ⟨rfl, rfl, rfl, rfl, by simp [entryFrame], ?_, fun _ => rfl⟩
    intro v s hm
    simp [entryFrame, reconfigures] at hm
  · refine ⟨rfl, rfl, rfl, rfl, ?_, ?_, ?_⟩
    · intro a ha
      simp only [entryFrame, List.nil_append, List.mem_append, List.mem_singleton] at ha
      rcases ha with rfl | ha
      · exact Or.inl ⟨_, _, rfl⟩
      · split at ha
        · simp only [List.mem_singleton] at ha
          exact Or.inr ⟨_, ha⟩
        · cases ha
    · intro v0 s hm
      have : (v0, s) = (v, outgoingSpec sp cfg (entryFrame h cache).h.Migrated) := by
        simp only [entryFrame, List.nil_append, reconfigures_append] at hm
        split at hm <;> simpa [reconfigures] using hm
      cases this
      rfl
    · intro hn
      simp only [entryFrame, List.nil_append, reconfigures_append] at hn
      split at hn <;> simp [reconfigures] at hn

/-- C14, amended: on a Handle with a remote reference whose id is in the cache,
with target Running and a cached runtime not powered-on, when the reconfigure
step does not end the Commit (the reconfigure of the outgoing spec, if one is
due, succeeds, and the cached config is present when a spec and a runtime
are), the power-on is issued
and the update of the cache entry from the Handle is the last effect of the
Commit, after the power-on, with no cache write before it; Commit returns nil,
or the power-on's error when it fails; and the entry ends up holding the
Handle's state after the stop and reconfigure steps, which the power-on does
not change: the Handle's runtime and config as on entry, with the spec that was
sent when a reconfigure was issued, and the Handle as passed in otherwise. -/
theorem Commit_refresh_follows_start (env : Remote) (sess : Option Session) (h : Handle)
    (cache : containerCache) (vm : ManagedObjectReference) (c : Container)
    (hvm : h.vm = some vm) (hc : cache.Container h.ExecConfig.ID = some c)
    (ht : h.targetState = .StateRunning) (hon : runtimeIs h.Runtime .poweredOn = false)
    (hcfg : h.Spec ≠ none → h.Runtime ≠ none → h.Config ≠ none)
    (hrec : ∀ spec cfg, h.Spec = some spec → h.Config = some cfg → h.Runtime ≠ none →
      env.Reconfigure vm (outgoingSpec spec cfg h.Migrated) = none) :
    (∃ pre, (Commit env sess h cache).frame.trace =
        pre ++ [.RefreshFromHandle h.ExecConfig.ID] ∧
      Action.start h.ExecConfig.ID ∈ pre ∧ cacheRefreshes pre = [] ∧
      (∀ id, Action.Put id ∉ pre)) ∧
    (Commit env sess h cache).ret =
      (match env.start with
       | none => .nil
       | some err => .error err) ∧
    (Commit env sess h cache).frame.Containers.Container h.ExecConfig.ID =
      some (c.RefreshFromHandle (Commit env sess h cache).frame.h) ∧
    (Commit env sess h cache).frame.h.tocontainerBase = h.tocontainerBase ∧
    (∀ v s, (v, s) ∈ reconfigures (Commit env sess h cache).frame.trace →
      (Commit env sess h cache).frame.h.Spec = some s) ∧
    (reconfigures (Commit env sess h cache).frame.trace = [] →
      (Commit env sess h cache).frame.h = h) := by
  have hs0 : stopBlock env (entryFrame h cache) = .next (entryFrame h cache) :=
    stopBlock_skip env _ (Or.inl (by simp [entryFrame, ht]))
  refine Commit_existing_rule env sess h cache vm
    (fun out => (∃ pre, out.frame.trace = pre ++ [.RefreshFromHandle h.ExecConfig.ID] ∧
        Action.start h.ExecConfig.ID ∈ pre ∧ cacheRefreshes pre = [] ∧
        (∀ id, Action.Put id ∉ pre)) ∧
      out.ret = (match env.start with
        | none => .nil
        | some err => .error err) ∧
      out.frame.Containers.Container h.ExecConfig.ID =
        some (c.RefreshFromHandle out.frame.h) ∧
      out.frame.h.tocontainerBase = h.tocontainerBase ∧
      (∀ v s, (v, s) ∈ reconfigures out.frame.trace → out.frame.h.Spec = some s) ∧
      (reconfigures out.frame.trace = [] → out.frame.h = h)) hvm ?_ ?_ ?_
  · intro r f hs
    rw [hs0] at hs
    cases hs
  · intro f1 r f hs hr
    rw [hs0] at hs
    cases hs
    obtain ⟨spec, rt, h1, h2, hcase⟩ := reconfigureBlock_ret_inv env _ _ _ hr
    have h1' : h.Spec = some spec := h1
    have h2' : h.Runtime = some rt := h2
    rcases hcase with ⟨_, _, h3⟩ | ⟨cfg, _, _, _, h4⟩ | ⟨cfg, v, err, _, _, h3c, h4, h5⟩
    · have h3' : h.Config = none := h3
      exact absurd h3' (hcfg (by simp [h1']) (by simp [h2']))
    · have h4' : h.vm = none := h4
      rw [hvm] at h4'
      cases h4'
    · have h4' : h.vm = some v := h4
      rw [hvm] at h4'
      cases h4'
      have h3c' : h.Config = some cfg := h3c
      have h5' : env.Reconfigure vm (outgoingSpec spec cfg h.Migrated) = some err := h5
      rw [hrec spec cfg h1' h3c' (by simp [h2'])] at h5'
      cases h5'
  · intro f1 f2 hs hr
    obtain ⟨F1, F2, F3, F4, F5, F6, F7⟩ := running_before_start env h cache f1 f2 ht hs hr
    have hid : f2.h.ExecConfig = h.ExecConfig := congrArg containerBase.ExecConfig F3
    have hrt : f2.h.Runtime = h.Runtime := congrArg containerBase.Runtime F3
    have hcs : f2.c = some c := F1.trans hc
    have hq : cacheRefreshes f2.trace = [] := by
      simp only [cacheRefreshes, List.filterMap_eq_nil_iff]
      intro a ha
      rcases F5 a ha with ⟨_, _, rfl⟩ | ⟨_, rfl⟩ <;> rfl
    have hput : ∀ id, Action.Put id ∉ f2.trace := by
      intro id ha
      rcases F5 _ ha with ⟨_, _, h0⟩ | ⟨_, h0⟩ <;> cases h0
    rcases startBlock_cases env f2 with h1 | h1 | ⟨err, h1⟩ | h1
    · rcases h1.2 with h2 | h2
      · exact absurd (F4.trans ht) h2
      · rw [hrt, hon] at h2
        cases h2
    · have := h1.2.2.2
      rw [hcs] at this
      cases this
    · rw [h1.1]
      simp only [runDeferred, hcs, h1.2.1, hid]
      refine ⟨⟨f2.trace ++ [.start h.ExecConfig.ID], rfl, by simp, ?_, ?_⟩, trivial, ?_, F3,
        ?_, ?_⟩
      · rw [cacheRefreshes_append, hq]
        rfl
      · intro id hm
        simp only [List.mem_append, List.mem_singleton] at hm
        rcases hm with hm | hm
        · exact hput id hm
        · cases hm
      · rw [F2]
        exact store_lookup _ _ _
      · intro v s hm
        apply F6 v s
        simpa [reconfigures_append, reconfigures] using hm
      · intro hn
        apply F7
        simpa [reconfigures_append, reconfigures] using hn
    · rw [h1.1]
      simp only [runDeferred, hcs, h1.2.1, hid]
      refine ⟨⟨f2.trace ++ [.start h.ExecConfig.ID,
          .publishContainerEvent h.ExecConfig.ID .ContainerStarted], rfl, by simp, ?_, ?_⟩,
          trivial, ?_, F3, ?_, ?_⟩
      · rw [cacheRefreshes_append, hq]
        rfl
      · intro id hm
        simp only [List.mem_append] at hm
        rcases hm with hm | hm
        · exact hput id hm
        · simp at hm
      · rw [F2]
        exact store_lookup _ _ _
      · intro v s hm
        apply F6 v s
        simpa [reconfigures_append, reconfigures] using hm
      · intro hn
        apply F7
        simpa [reconfigures_append, reconfigures] using hn

/-- Witness of C14: reconfiguring and starting the stopped, cached `c1`. -/
theorem Commit_refresh_follows_start_witness :
    restartHandle.vm = some "vm-1" ∧
    sampleCache.Container restartHandle.ExecConfig.ID =
      some (newContainer existingHandle.tocontainerBase) ∧
    restartHandle.targetState = .StateRunning ∧
    runtimeIs restartHandle.Runtime .poweredOn = false ∧
    (∃ pre, (Commit okRemote none restartHandle sampleCache).frame.trace =
        pre ++ [.RefreshFromHandle restartHandle.ExecConfig.ID] ∧
      Action.start restartHandle.ExecConfig.ID ∈ pre ∧ cacheRefreshes pre = [] ∧
      (∀ id, Action.Put id ∉ pre)) ∧
    (Commit okRemote none restartHandle sampleCache).ret = .nil ∧
    (Commit okRemote none restartHandle sampleCache).frame.Containers.Container
        restartHandle.ExecConfig.ID =
      some ((newContainer existingHandle.tocontainerBase).RefreshFromHandle
        (Commit okRemote none restartHandle sampleCache).frame.h) :=
  ⟨rfl, rfl, rfl, rfl,
    (Commit_refresh_follows_start okRemote none restartHandle sampleCache "vm-1"
      (newContainer existingHandle.tocontainerBase) rfl rfl rfl rfl
      (fun _ _ => by decide) (fun _ _ _ _ _ => rfl)).1,
    (Commit_refresh_follows_start okRemote none restartHandle sampleCache "vm-1"
      (newContainer existingHandle.tocontainerBase) rfl rfl rfl rfl
      (fun _ _ => by decide) (fun _ _ _ _ _ => rfl)).2.1,
    (Commit_refresh_follows_start okRemote none restartHandle sampleCache "vm-1"
      (newContainer existingHandle.tocontainerBase) rfl rfl rfl rfl
      (fun _ _ => by decide) (fun _ _ _ _ _ => rfl)).2.2.1⟩

/-! ### C15: no step acts on an absent value -/

/-- On an existing container whose id is cached and whose config is known
whenever its runtime is, on entry and after the refresh, Commit does not
panic. -/
theorem Commit_existing_no_panic (env : Remote) (sess : Option Session) (h : Handle)
    (cache : containerCache) (vm : ManagedObjectReference) (c : Container)
    (hvm : h.vm = some vm) (hc : cache.Container h.ExecConfig.ID = some c)
    (hcfg : h.Runtime ≠ none → h.Config ≠ none)
    (hupd : ∀ base, env.updates = .ok base → base.Runtime ≠ none → base.Config ≠ none) :
    (Commit env sess h cache).ret ≠ .panic := by
  have hc0 : (entryFrame h cache).c = some c := hc
  refine Commit_existing_rule env sess h cache vm (fun out => out.ret ≠ .panic) hvm ?_ ?_ ?_
  · intro r f hs
    obtain ⟨_, _, hcase⟩ := stopBlock_ret_inv env _ _ _ hs
    rcases hcase with ⟨_, _, hn⟩ | ⟨e, rfl, _⟩ | ⟨e, rfl, _⟩
    · rw [hc0] at hn
      cases hn
    · simp
    · simp
  · intro f1 r f hs hr
    obtain ⟨_, hv1, _, _, _, _, _, _, hst⟩ := stopBlock_next_facts env _ _ hs
    obtain ⟨spec, rt, _, hrt, hcase⟩ := reconfigureBlock_ret_inv env _ _ _ hr
    have hcf : f1.h.Config ≠ none := by
      by_cases hcnd : (entryFrame h cache).h.targetState = .StateStopped ∧
          runtimeIs (entryFrame h cache).h.Runtime .poweredOff = false
      · rw [if_pos hcnd] at hst
        obtain ⟨base, hb, _, _, e1, e2, _⟩ := hst
        rw [e1]
        apply hupd base hb
        rw [← e2, hrt]
        simp
      · rw [if_neg hcnd] at hst
        rw [hst.1]
        apply hcfg
        have : f1.h.Runtime = h.Runtime := hst.2.1
        rw [← this, hrt]
        simp
    rcases hcase with ⟨_, _, hn⟩ | ⟨_, _, _, _, hn⟩ | ⟨_, _, _, rfl, _⟩
    · exact absurd hn hcf
    · rw [hv1] at hn
      have : h.vm = none := hn
      rw [hvm] at this
      cases this
    · simp
  · intro f1 f2 hs hr
    obtain ⟨_, _, _, _, _, _, hc1, _⟩ := stopBlock_next_facts env _ _ hs
    obtain ⟨hc2, _⟩ := reconfigureBlock_next_facts env _ _ hr
    have hcs : f2.c = some c := by rw [hc2, hc1]; exact hc0
    obtain ⟨_, sc, _⟩ := startBlock_frame env f2
    rcases startBlock_cases env f2 with h1 | h1 | ⟨err, h1⟩ | h1
    · rcases runDeferred_cases (startBlock env f2) with ⟨_, hn⟩ | ⟨c0, hd, _⟩
      · rw [sc, hcs] at hn
        cases hn
      · rw [hd, h1.1]
        simp
    · have := h1.2.2.2
      rw [hcs] at this
      cases this
    · rcases runDeferred_cases (startBlock env f2) with ⟨_, hn⟩ | ⟨c0, hd, _⟩
      · rw [sc, hcs] at hn
        cases hn
      · rw [hd, h1.1]
        simp
    · rcases runDeferred_cases (startBlock env f2) with ⟨_, hn⟩ | ⟨c0, hd, _⟩
      · rw [sc, hcs] at hn
        cases hn
      · rw [hd, h1.1]
        simp

/-- On the creation path, Commit does not panic, and when it gets past the
creation its local `c` is the Container it inserted, which the cache holds
under the Handle's id. -/
theorem Commit_creation_no_panic (env : Remote) (sess : Option Session) (h : Handle)
    (cache : containerCache) (hvm : h.vm = none) :
    (Commit env sess h cache).ret ≠ .panic ∧
    (∀ id, Action.Put id ∈ (Commit env sess h cache).frame.trace →
      ∃ ref, (Commit env sess h cache).frame.c =
          some (newContainer { h.tocontainerBase with vm := some ref }) ∧
        (Commit env sess h cache).frame.Containers.Container h.ExecConfig.ID =
          (Commit env sess h cache).frame.c) := by
  refine Commit_creation_rule env sess h cache
    (fun out => out.ret ≠ .panic ∧
      (∀ id, Action.Put id ∈ out.frame.trace →
        ∃ ref, out.frame.c = some (newContainer { h.tocontainerBase with vm := some ref }) ∧
          out.frame.Containers.Container h.ExecConfig.ID = out.frame.c)) hvm ?_ ?_ ?_ ?_
  · intro r f hc
    rcases creationBlock_ret_inv env sess _ _ _ hc with
      ⟨rfl, _, rfl⟩ | ⟨spec, s, err, acts, rfl, rfl, _, _, _, hct⟩
    · simp [entryFrame]
    · refine ⟨by simp, ?_⟩
      intro id hm
      rcases createTask_acts env s spec _ _ hct with ⟨rfl, _⟩ | ⟨rfl, _⟩ | ⟨rfl, _⟩ <;>
        simp [entryFrame] at hm
  · intro f0 r f hc hs
    obtain ⟨spec, s, ref, acts, rfl, _⟩ := creationBlock_next_inv env sess _ _ hc
    obtain ⟨_, _, hcase⟩ := stopBlock_ret_inv env _ _ _ hs
    rcases hcase with ⟨_, _, hn⟩ | ⟨e, rfl, rfl, _⟩ | ⟨e, rfl, rfl, _⟩
    · cases hn
    · exact ⟨by simp, fun _ _ => ⟨ref, rfl, store_lookup _ _ _⟩⟩
    · exact ⟨by simp, fun _ _ => ⟨ref, rfl, store_lookup _ _ _⟩⟩
  · intro f0 f1 r f hc hs hr
    obtain ⟨spec, s, ref, acts, rfl, _⟩ := creationBlock_next_inv env sess _ _ hc
    obtain ⟨hsp, _⟩ := stopBlock_next_facts env _ _ hs
    have h1 : f1.h.Spec = none := hsp
    rw [reconfigureBlock_of_spec_none env f1 h1] at hr
    cases hr
  · intro f0 f1 f2 hc hs hr
    obtain ⟨spec, s, ref, acts, rfl, _⟩ := creationBlock_next_inv env sess _ _ hc
    obtain ⟨_, _, _, _, _, _, hc1, hC1, _⟩ := stopBlock_next_facts env _ _ hs
    obtain ⟨hc2, hC2, _⟩ := reconfigureBlock_next_facts env _ _ hr
    obtain ⟨_, sc, sC, _⟩ := startBlock_frame env f2
    have hcs : f2.c = some (newContainer { h.tocontainerBase with vm := some ref }) := by
      rw [hc2, hc1]
      rfl
    constructor
    · rcases startBlock_cases env f2 with h1 | h1 | ⟨err, h1⟩ | h1
      · rw [h1.1]; simp
      · have := h1.2.2.2
        rw [hcs] at this
        cases this
      · rw [h1.1]; simp
      · rw [h1.1]; simp
    · intro _ _
      refine ⟨ref, ?_, ?_⟩
      · rw [sc, hcs]
      · rw [sC, sc, hC2, hC1, hcs]
        exact store_lookup _ _ _

/-- C15: Commit acts on no absent value (it never panics) on a Handle with a
remote reference whose id is in the cache on entry and whose cached config is
present whenever the cached runtime is, on entry and in every result of the
post-stop refresh; nor does it on the creation path, where once the new
Container is inserted the local `c` is that Container and the cache holds it
under the Handle's id. -/
theorem Commit_acts_on_present_values (env : Remote) (sess : Option Session) (h : Handle)
    (cache : containerCache) :
    (∀ vm c, h.vm = some vm → cache.Container h.ExecConfig.ID = some c →
      (h.Runtime ≠ none → h.Config ≠ none) →
      (∀ base, env.updates = .ok base → base.Runtime ≠ none → base.Config ≠ none) →
      (Commit env sess h cache).ret ≠ .panic) ∧
    (h.vm = none →
      (Commit env sess h cache).ret ≠ .panic ∧
      (∀ id, Action.Put id ∈ (Commit env sess h cache).frame.trace →
        ∃ ref, (Commit env sess h cache).frame.c =
            some (newContainer { h.tocontainerBase with vm := some ref }) ∧
          (Commit env sess h cache).frame.Containers.Container h.ExecConfig.ID =
            (Commit env sess h cache).frame.c)) :=
  ⟨fun vm c hvm hc hcfg hupd => Commit_existing_no_panic env sess h cache vm c hvm hc hcfg hupd,
    fun hvm => Commit_creation_no_panic env sess h cache hvm⟩

/-- Witness of C15: the stop and reconfigure of the cached `c1`. -/
theorem Commit_acts_on_present_values_witness :
    existingHandle.vm = some "vm-1" ∧
    sampleCache.Container existingHandle.ExecConfig.ID =
      some (newContainer existingHandle.tocontainerBase) ∧
    (Commit okRemote none existingHandle sampleCache).ret ≠ .panic :=
  ⟨rfl, rfl,
    (Commit_acts_on_present_values okRemote none existingHandle sampleCache).1 "vm-1"
      (newContainer existingHandle.tocontainerBase) rfl rfl (by decide)
      (fun base hb _ => by cases hb; decide)⟩

/-! ### C6: the returned value, and when Commit returns -/

/-- C6, amended: Commit returns nil if and only if it does not panic and none
of the steps it triggered failed, the failing steps being a creation
precondition check, the lookup of the datacenter folders, the create task, the
power-off, the targeted refresh, the reconfigure and the power-on; it returns
an error exactly when one of them failed, and then the error of the first one
(that of a reconfigure as lines 157-166 return it); after the failed step no
create, power or reconfigure operation is issued; and the answer of the
in-guest reload never changes the outcome.  Commit does not panic on a
creation, nor on a Handle with a remote reference whose id is in the cache and
whose cached config is present whenever its cached runtime is, on entry and in
every result of the post-stop refresh. -/
theorem Commit_result_first_failure (env : Remote) (sess : Option Session) (h : Handle)
    (cache : containerCache) :
    ((Commit env sess h cache).ret = .nil ↔
      (Commit env sess h cache).ret ≠ .panic ∧ preconditionError sess h cache = none ∧
      ∀ a ∈ (Commit env sess h cache).frame.trace, env.stepFailure a = none) ∧
    (∀ e, (Commit env sess h cache).ret = .error e ↔
      preconditionError sess h cache = some e ∨
      (preconditionError sess h cache = none ∧
        firstFailure env.stepFailure (Commit env sess h cache).frame.trace = some e)) ∧
    quietAfterFailure env.stepFailure (Commit env sess h cache).frame.trace = true ∧
    (∀ x, Commit { env with startGuestProgram := x } sess h cache = Commit env sess h cache) ∧
    (h.vm = none → (Commit env sess h cache).ret ≠ .panic) ∧
    (∀ vm c, h.vm = some vm → cache.Container h.ExecConfig.ID = some c →
      (h.Runtime ≠ none → h.Config ≠ none) →
      (∀ base, env.updates = .ok base → base.Runtime ≠ none → base.Config ≠ none) →
      (Commit env sess h cache).ret ≠ .panic) := by
  obtain ⟨h1, h2, h3, h4⟩ := result_is_first_failure env sess h cache
  exact ⟨h1, h2, h3, h4, fun hvm => (Commit_creation_no_panic env sess h cache hvm).1,
    fun vm c hvm hc hcfg hupd => Commit_existing_no_panic env sess h cache vm c hvm hc hcfg hupd⟩

/-- Witness of C6: the stop and reconfigure of the cached `c1` return nil. -/
theorem Commit_result_first_failure_witness :
    existingHandle.vm = some "vm-1" ∧
    sampleCache.Container existingHandle.ExecConfig.ID =
      some (newContainer existingHandle.tocontainerBase) ∧
    (Commit okRemote none existingHandle sampleCache).ret ≠ .panic ∧
    (Commit okRemote none existingHandle sampleCache).ret = .nil :=
  ⟨rfl, rfl,
    (Commit_result_first_failure okRemote none existingHandle sampleCache).2.2.2.2.2 "vm-1"
      (newContainer existingHandle.tocontainerBase) rfl rfl (by decide)
      (fun base hb _ => by cases hb; decide),
    (Commit_result_first_failure okRemote none existingHandle sampleCache).1.mpr
      ⟨by decide, by decide, by decide⟩⟩

/-! ### C16: the filtering loop of `imagec` -/

theorem utf8ByteSize_go_ge (cs : List Char) : cs.length ≤ String.utf8ByteSize.go cs := by
  induction cs with
  | nil => simp [String.utf8ByteSize.go]
  | cons c cs ih =>
    simp only [String.utf8ByteSize.go, List.length_cons]
    have : 1 ≤ c.utf8Size := by
      have := Char.utf8Size_pos c
      omega
    omega

theorem length_le_utf8ByteSize (s : String) : s.length ≤ s.utf8ByteSize := by
  cases s with
  | mk cs => exact utf8ByteSize_go_ge cs

/-- The loop run over a prefix `pre` of the slice, from its last element down:
it keeps the elements of `pre` that do not exist yet, leaves the rest of the
slice alone, and examines the elements of `pre` once each, last to first. -/
theorem filterLoop_prefix (existingImages : List String) (pre : List ImageWithMeta)
    (hlen : ∀ image ∈ pre, 12 ≤ image.ID.length) :
    ∀ (rest ex : List ImageWithMeta) (up : List (List UInt8)),
      filterLoop existingImages pre.length { images := pre ++ rest, examined := ex, updates := up }
        = some { images := pre.filter (fun image => !existingImages.contains image.ID) ++ rest
                 examined := ex ++ pre.reverse
                 updates := up ++
                   (pre.reverse.filter (fun image => existingImages.contains image.ID)).map
                     (fun image => idPrefix image.ID) } := by
  induction pre using List.reverseRecOn with
  | nil =>
    intro rest ex up
    simp [filterLoop]
  | append_singleton init x ih =>
    intro rest ex up
    have hx : 12 ≤ x.ID.length := hlen x (by simp)
    have hb : ¬ x.ID.utf8ByteSize < 12 := by
      have := length_le_utf8ByteSize x.ID
      omega
    have hinit : ∀ image ∈ init, 12 ≤ image.ID.length := fun image hm =>
      hlen image (by simp [hm])
    have hget : (init ++ [x] ++ rest)[init.length]? = some x := by
      rw [List.append_assoc, List.getElem?_append_right (Nat.le_refl _)]
      simp
    rw [List.length_append, List.length_singleton, filterLoop, filterStep, hget]
    simp only []
    by_cases he : existingImages.contains x.ID = true
    · rw [if_pos he, if_neg hb]
      have htake : (init ++ [x] ++ rest).take init.length ++
          (init ++ [x] ++ rest).drop (init.length + 1) = init ++ rest := by
        simp [List.take_append_eq_append_take, List.drop_append_eq_append_drop]
      simp only [Option.some_bind, htake]
      rw [ih hinit]
      have he2 : x.ID ∈ existingImages := by simpa using he
      simp [List.filter_append, List.reverse_append, List.filter_cons, he2]
    · rw [if_neg he]
      simp only [Option.some_bind]
      have := ih hinit ([x] ++ rest) (ex ++ [x]) up
      simp only [List.append_assoc] at this ⊢
      rw [this]
      have he2 : x.ID ∉ existingImages := by simpa using he
      simp [List.filter_append, List.reverse_append, List.filter_cons, he2]

/-- C16: for every list of manifest images whose IDs are at least 12
characters long and every set of existing IDs, the loop runs to its end
without a panic; the list that remains is the original list without the images
whose ID exists, in the original order; and the images read at line 231 are
the original ones, last to first, each exactly once. -/
theorem filterExisting_spec (existingImages : List String) (images : List ImageWithMeta)
    (hlen : ∀ image ∈ images, 12 ≤ image.ID.length) :
    ∃ st, filterExisting existingImages images = some st ∧
      st.images = images.filter (fun image => !existingImages.contains image.ID) ∧
      st.examined = images.reverse ∧ st.examined.Perm images := by
  have := filterLoop_prefix existingImages images hlen [] [] []
  simp only [List.append_nil, List.nil_append] at this
  exact ⟨_, this, rfl, rfl, List.reverse_perm _⟩

/-- Witness of C16: of three manifest images the middle one exists. -/
theorem filterExisting_spec_witness :
    (∀ image ∈ manifestImages, 12 ≤ image.ID.length) ∧
    ∃ st, filterExisting existingIDs manifestImages = some st ∧
      st.images = manifestImages.filter (fun image => !existingIDs.contains image.ID) ∧
      st.examined = manifestImages.reverse ∧ st.examined.Perm manifestImages :=
  ⟨by decide, filterExisting_spec existingIDs manifestImages (by decide)⟩

end Vic
